import Mathlib

/-!
Shallow embedding of the analytics pipeline of `src/index.js` (tooler.io).

The repository keeps several superseded revisions of its stats code in one
file; following the spec, the operative revision is the most complete one:
`calculateRealStats` (line 1917), `calculatePeriodStats` (1978),
`calculateTrends` (2117), `calculateExitPages` (2148),
`calculateTrafficSources` (2193), `formatSource` (2228),
`calculateConversionFunnel` (2276).

Modelling conventions:
* timestamps (`created_at`, `Date` values) are rationals counting
  milliseconds since the epoch; JS number arithmetic on them is exact at
  these magnitudes, so `ℚ` is faithful;
* `parseFloat(x.toFixed(1))` rounds to one decimal, half towards `+∞`
  (ECMA `toFixed` picks the larger candidate on ties), embedded as
  `toFixed1`; `Math.round` is `jsRound`;
* a JS division that can produce `NaN`/`±Infinity` is embedded with the
  type `JSNum` that carries those values explicitly (Lean division by zero
  silently yields 0, which would hide them);
* a JS plain object / `Map` keyed by `visitor_id` is an association list
  in key-insertion order, built by folding over the events exactly as the
  `forEach` loops do;
* the Supabase query for historical visitors inside `calculatePeriodStats`
  is external input and becomes the parameter `hist` (the list of visitor
  ids seen before the period).
-/

/-- Math.round: round half towards positive infinity. -/
def jsRound (x : ℚ) : ℤ := ⌊x + 1/2⌋

/-- Evaluation of parseFloat(x.toFixed(1)): one decimal, half towards +∞. -/
def toFixed1 (x : ℚ) : ℚ := (jsRound (x * 10) : ℚ) / 10

/-- JS number that may be NaN or an infinity (needed where the source
divides without a zero guard). -/
inductive JSNum where
  | num (q : ℚ)
  | nan
  | posInf
  | negInf
deriving DecidableEq, Repr

/-- Division of finite JS numbers: `a / b` with the IEEE special cases
`0/0 = NaN`, `±x/0 = ±Infinity`. -/
def jsDiv (a b : ℚ) : JSNum :=
  if b ≠ 0 then .num (a / b)
  else if a > 0 then .posInf
  else if a < 0 then .negInf
  else .nan

/-- Multiplication of a JS number by a positive finite constant keeps the
special values. -/
def JSNum.mulPos (x : JSNum) (c : ℚ) : JSNum :=
  match x with
  | .num q => .num (q * c)
  | v => v

/-- Application of parseFloat(.toFixed(1)) to a JS number: `NaN.toFixed(1)`
is "NaN" and `(±Infinity).toFixed(1)` is "±Infinity", which parseFloat maps
back to the same special values. -/
def jsNumToFixed1 (x : JSNum) : JSNum :=
  match x with
  | .num q => .num (toFixed1 q)
  | v => v

/-- Row of the `page_views` table as the pipeline reads it.  `created_at`
is in epoch milliseconds; `utm_source` and `referrer` are `none` when the
column is null/undefined. -/
structure RawEvent where
  visitor_id : String
  created_at : ℚ
  path : String
  utm_source : Option String
  referrer : Option String
  time_on_page : ℚ
deriving DecidableEq, Repr

/-- Session record kept by `calculatePeriodStats`: start time, end time and
the events in append order (the generated `sessionId` string plays no role
in any output and is omitted). -/
structure Session where
  startTime : ℚ
  endTime : ℚ
  events : List RawEvent
deriving DecidableEq, Repr

/-- Evaluation of `new Date(session.events[session.events.length - 1].created_at)`. -/
def lastEventTime (s : Session) : ℚ :=
  match s.events.getLast? with
  | some e => e.created_at
  | none => 0

/-- Scan of the `for (let session of visitorSessions)` loop: the first
session whose last event is within 30 minutes (signed difference) receives
the event; `none` when no session qualifies. -/
def attachEvent (e : RawEvent) : List Session → Option (List Session)
  | [] => none
  | s :: rest =>
    if (e.created_at - lastEventTime s) / (1000 * 60) ≤ 30 then
      some ({ s with endTime := e.created_at, events := s.events ++ [e] } :: rest)
    else
      (attachEvent e rest).map (s :: ·)

/-- Processing of one event against one visitor's session list: attach to
the first qualifying session, else push a fresh single-event session at the
end. -/
def addEvent (ss : List Session) (e : RawEvent) : List Session :=
  match attachEvent e ss with
  | some ss2 => ss2
  | none => ss ++ [{ startTime := e.created_at, endTime := e.created_at, events := [e] }]

/-- Update of the entry of key `k` in a JS `Map`/plain object modelled as
an association list in key-insertion order: the first entry with key `k`
is updated in place, a missing key is appended at the end with `f dflt`
(get-or-create followed by a mutation). -/
def updAssoc {β : Type} (dflt : β) (k : String) (f : β → β) :
    List (String × β) → List (String × β)
  | [] => [(k, f dflt)]
  | (k0, v) :: rest =>
    if k0 = k then (k0, f v) :: rest else (k0, v) :: updAssoc dflt k f rest

/-- Fold of a `forEach` loop that updates a keyed object: each item `i`
updates the entry of key `key i` with `μ i`, and items whose key is `none`
are skipped. -/
def keyedFold {α β : Type} (dflt : β) (key : α → Option String)
    (μ : α → β → β) (m : List (String × β)) (L : List α) : List (String × β) :=
  L.foldl (fun m i =>
    match key i with
    | some k => updAssoc dflt k (μ i) m
    | none => m) m

/-- Value stored for key `k`, with `dflt` for an absent key. -/
def valOf {β : Type} (dflt : β) (m : List (String × β)) (k : String) : β :=
  ((m.find? (fun kv => kv.1 = k)).map (·.2)).getD dflt

/-- Insertion step of first-occurrence deduplication. -/
def dedupStep (acc : List String) (x : String) : List String :=
  if x ∈ acc then acc else acc ++ [x]

/-- Keys in first-occurrence order — the iteration order of a JS object or
`Map` built by insertion, and the element list of a JS `Set`. -/
def dedupFirst (l : List String) : List String :=
  l.foldl dedupStep []

/-- Session map of `calculatePeriodStats`: the `sessions` `Map` after the
`pageViews.forEach` loop. -/
def buildSessionMap (pv : List RawEvent) : List (String × List Session) :=
  keyedFold [] (fun e => some e.visitor_id) (fun e ss => addEvent ss e) [] pv

/-- Per-visitor session list obtained by folding that visitor's events in
input order (the decomposition lemma below shows the interleaved fold
equals this). -/
def buildSessions (l : List RawEvent) : List Session :=
  l.foldl addEvent []

/-- Output record of `calculatePeriodStats`. -/
structure Stats where
  totalVisitors : ℕ
  newVisitors : ℤ
  returningVisitors : ℕ
  bounceRate : ℚ
  avgSessionDuration : ℤ
  pagesPerVisit : ℚ
  totalPageViews : ℕ
  totalSessions : ℕ
deriving DecidableEq, Repr

/-- Embedding of `calculatePeriodStats(pageViews, domain, periodStartTime)`
(src/index.js:1978).  `hist` stands for the visitor ids returned by the
Supabase query for events strictly before the period (empty when the
database is unavailable).  The locals `visitorEvents` and
`visitorFirstSeen` of the source are dead stores and are omitted. -/
def calculatePeriodStats (pv : List RawEvent) (hist : List String) : Stats :=
  let visitors := dedupFirst (pv.map (·.visitor_id))
  let sessions := buildSessionMap pv
  let totalSessions := (sessions.map (fun kv => kv.2.length)).sum
  let bounceSessions :=
    (sessions.map (fun kv => (kv.2.filter (fun s => s.events.length = 1)).length)).sum
  let bounceRate : ℚ :=
    if totalSessions > 0 then ((bounceSessions : ℚ) / totalSessions) * 100 else 0
  let totalSessionDuration : ℚ :=
    (sessions.map (fun kv =>
      ((kv.2.filter (fun s => 1 < s.events.length)).map
        (fun s => (s.endTime - s.startTime) / 1000)).sum)).sum
  let sessionsWithDuration :=
    (sessions.map (fun kv => (kv.2.filter (fun s => 1 < s.events.length)).length)).sum
  let avgSessionDuration : ℤ :=
    if sessionsWithDuration > 0 then jsRound (totalSessionDuration / sessionsWithDuration)
    else 0
  let returningVisitors := visitors.countP (fun v => v ∈ hist)
  let totalVisitors := visitors.length
  let pagesPerVisit : ℚ :=
    if totalSessions > 0 then toFixed1 ((pv.length : ℚ) / totalSessions) else 0
  { totalVisitors := totalVisitors
    newVisitors := (totalVisitors : ℤ) - returningVisitors
    returningVisitors := returningVisitors
    bounceRate := toFixed1 bounceRate
    avgSessionDuration := avgSessionDuration
    pagesPerVisit := pagesPerVisit
    totalPageViews := pv.length
    totalSessions := totalSessions }

/-- Per-metric trend record returned by `calculateTrends`. -/
structure Trends where
  bounceRate : ℚ
  avgSessionDuration : ℚ
  pagesPerVisit : ℚ
  totalVisitors : ℚ
  newVisitors : ℚ
  returningVisitors : ℚ
deriving DecidableEq, Repr

/-- Helper `calculateChange(current, previous)` of `calculateTrends`. -/
def calculateChange (current previous : ℚ) : ℚ :=
  if previous = 0 then (if current > 0 then 100 else 0)
  else (current - previous) / previous * 100

/-- Embedding of `calculateTrends(currentStats, previousStats)`
(src/index.js:2117); `none` stands for the `null` previous stats. -/
def calculateTrends (cur : Stats) (prev : Option Stats) : Trends :=
  match prev with
  | none =>
    { bounceRate := 0, avgSessionDuration := 0, pagesPerVisit := 0
      totalVisitors := 0, newVisitors := 0, returningVisitors := 0 }
  | some p =>
    { bounceRate := toFixed1 (calculateChange cur.bounceRate p.bounceRate)
      avgSessionDuration :=
        toFixed1 (calculateChange (cur.avgSessionDuration : ℚ) (p.avgSessionDuration : ℚ))
      pagesPerVisit := toFixed1 (calculateChange cur.pagesPerVisit p.pagesPerVisit)
      totalVisitors :=
        toFixed1 (calculateChange (cur.totalVisitors : ℚ) (p.totalVisitors : ℚ))
      newVisitors := toFixed1 (calculateChange (cur.newVisitors : ℚ) (p.newVisitors : ℚ))
      returningVisitors :=
        toFixed1 (calculateChange (cur.returningVisitors : ℚ) (p.returningVisitors : ℚ)) }

/-- Evaluation of `getStartDate(range)` (src/index.js:1631) with the
current clock passed explicitly, in epoch milliseconds. -/
def getStartDate (range : String) (now : ℚ) : ℚ :=
  if range = "24h" then now - 24 * 60 * 60 * 1000
  else if range = "7d" then now - 7 * 24 * 60 * 60 * 1000
  else if range = "30d" then now - 30 * 24 * 60 * 60 * 1000
  else now - 24 * 60 * 60 * 1000

/-- Evaluation of `getPreviousPeriodStart(timeRange)` (src/index.js:1963). -/
def getPreviousPeriodStart (range : String) (now : ℚ) : ℚ :=
  if range = "24h" then now - 48 * 60 * 60 * 1000
  else if range = "7d" then now - 14 * 24 * 60 * 60 * 1000
  else if range = "30d" then now - 60 * 24 * 60 * 60 * 1000
  else now - 48 * 60 * 60 * 1000

/-- Result object of `calculateRealStats` (src/index.js:1917).  The normal
path spreads the period stats and adds `trends`, `lastUpdated` (the call
time) and `realData: true`; the empty path returns `getEmptyStats()`,
which carries zero stats, no `trends` field (here `none`), `realData:
false`, and constant empty `exitPages`/`trafficSources`/`conversionFunnel`
lists which are omitted as constants. -/
structure RealStats where
  stats : Stats
  trends : Option Trends
  lastUpdated : ℚ
  realData : Bool
deriving DecidableEq, Repr

/-- Evaluation of `getEmptyStats()` (src/index.js:1604) restricted to the
fields of `RealStats`. -/
def getEmptyStats (now : ℚ) : RealStats :=
  { stats :=
      { totalVisitors := 0, newVisitors := 0, returningVisitors := 0
        bounceRate := 0, avgSessionDuration := 0, pagesPerVisit := 0
        totalPageViews := 0, totalSessions := 0 }
    trends := none
    lastUpdated := now
    realData := false }

/-- Embedding of `calculateRealStats(pageViews, timeRange, domain)`
(src/index.js:1917).  `now` is the wall clock read by `new Date()` /
`getStartDate` during the call; `hist` and `histPrev` are the historical
visitor ids the two `calculatePeriodStats` calls obtain from the database
for the current and the previous period start. -/
def calculateRealStats (pv : List RawEvent) (timeRange : String)
    (hist histPrev : List String) (now : ℚ) : RealStats :=
  if pv = [] then getEmptyStats now
  else
    let startTime := getStartDate timeRange now
    let filtered := pv.filter (fun e => startTime ≤ e.created_at)
    if filtered = [] then getEmptyStats now
    else
      let previousStartTime := getPreviousPeriodStart timeRange now
      let previous := pv.filter
        (fun e => previousStartTime ≤ e.created_at ∧ e.created_at < startTime)
      let currentStats := calculatePeriodStats filtered hist
      let previousStats :=
        if previous.length > 0 then some (calculatePeriodStats previous histPrev)
        else none
      { stats := currentStats
        trends := some (calculateTrends currentStats previousStats)
        lastUpdated := now
        realData := true }

/-- Accumulator entry of the `pageStats` object in `calculateExitPages`. -/
structure PageAcc where
  visits : ℕ
  exits : ℕ
  totalTime : ℚ
deriving DecidableEq, Repr

/-- Stable ascending sort by `created_at`, as `pages.sort((a, b) =>
new Date(a.created_at) - new Date(b.created_at))` performs. -/
def sortByTime (l : List RawEvent) : List RawEvent :=
  l.mergeSort (fun a b => a.created_at ≤ b.created_at)

/-- Grouping of the events by `visitor_id` in input order (the
`visitorPages` object of `calculateExitPages` and the `visitorEvents`
object of the superseded revisions). -/
def visitorPagesOf (pv : List RawEvent) : List (String × List RawEvent) :=
  keyedFold [] (fun e => some e.visitor_id) (fun e l => l ++ [e]) [] pv

/-- Path of the chronologically last page of one visitor group — the key
charged with an exit. -/
def exitPathOf (kv : String × List RawEvent) : Option String :=
  ((sortByTime kv.2).getLast?).map (·.path)

/-- One row of the `calculateExitPages` result. -/
structure ExitPage where
  url : String
  exitRate : ℚ
  visits : ℕ
  avgTimeOnPage : ℤ
deriving DecidableEq, Repr

/-- Embedding of `calculateExitPages(pageViews)` (src/index.js:2148):
exits are charged to each visitor's chronologically last page, visits and
time-on-page are accumulated per path over all events, and the rows are
sorted descending by `exitRate` (stable, as JS `sort`) and cut to 10. -/
def calculateExitPages (pv : List RawEvent) : List ExitPage :=
  if pv = [] then []
  else
    let afterExits := keyedFold (⟨0, 0, 0⟩ : PageAcc) exitPathOf
      (fun _ a => { a with exits := a.exits + 1 }) [] (visitorPagesOf pv)
    let stats := keyedFold (⟨0, 0, 0⟩ : PageAcc) (fun e => some e.path)
      (fun e a => { a with visits := a.visits + 1
                           totalTime := a.totalTime + e.time_on_page }) afterExits pv
    let rows := stats.map (fun kv =>
      { url := kv.1
        exitRate := toFixed1 (((kv.2.exits : ℚ) / (kv.2.visits : ℚ)) * 100)
        visits := kv.2.visits
        avgTimeOnPage := jsRound (kv.2.totalTime / (kv.2.visits : ℚ)) : ExitPage })
    (rows.mergeSort (fun a b => b.exitRate ≤ a.exitRate)).take 10

/-- JS truthiness fallback `x || y` for a nullable string column: null,
undefined and the empty string all fall through. -/
def orFalsy (x : Option String) (y : String) : String :=
  match x with
  | some s => if s = "" then y else s
  | none => y

/-- Traffic-source key of one event: `pv.utm_source || pv.referrer || 'direct'`. -/
def sourceKey (e : RawEvent) : String :=
  orFalsy e.utm_source (orFalsy e.referrer "direct")

/-- Decision procedure for one literal alternative of the stage regexes and
the brand checks: does `pat` occur as a substring of `s`? -/
def strContains (s pat : String) : Bool :=
  decide (pat.toList <:+: s.toList)

/-- Splitting of a character list at every occurrence of a non-empty
separator, scanning left to right and consuming the separator, as JS
`String.split` with a string argument does.  The fuel is the scan bound;
`splitOnL` supplies the list length, which suffices. -/
def splitOnFuel (sep : List Char) : ℕ → List Char → List Char → List (List Char)
  | 0, acc, l => [acc.reverse ++ l]
  | fuel + 1, acc, l =>
    match l with
    | [] => [acc.reverse]
    | c :: rest =>
      if sep ≠ [] ∧ sep <+: (c :: rest) then
        acc.reverse :: splitOnFuel sep fuel [] ((c :: rest).drop sep.length)
      else
        splitOnFuel sep fuel (c :: acc) rest

/-- Model of JS `s.split(sep)` for a non-empty separator, on character
lists. -/
def splitOnL (sep l : List Char) : List (List Char) :=
  splitOnFuel sep l.length [] l

/-- Replacement of the first occurrence of `pat` in `s` by the empty
string, as JS `s.replace(pat, '')` with a string argument does. -/
def replaceFirst (s pat : String) : String :=
  match splitOnL pat.toList s.toList with
  | [] => s
  | [x] => ⟨x⟩
  | x :: y :: rest => ⟨x ++ y ++ (rest.map (fun r => pat.toList ++ r)).flatten⟩

/-- Hostname of a URL string, modelling the platform `new URL(source)`
parser on `scheme://host[:port][/path…]` shapes: the text after the first
`://` up to the first `/`, `:`, `?` or `#`, lowercased; `none` (a thrown
TypeError in JS) when there is no `://` or the host part is empty. -/
def parseHostname (s : String) : Option String :=
  match splitOnL "://".toList s.toList with
  | _ :: after :: _ =>
    let host := String.mk ((after.takeWhile
      (fun c => c ≠ '/' ∧ c ≠ ':' ∧ c ≠ '?' ∧ c ≠ '#')).map Char.toLower)
    if host = "" then none else some host
  | _ => none

/-- Embedding of `formatSource(source)` (src/index.js:2228). -/
def formatSource (source : String) : String :=
  if strContains source "google" then "Google"
  else if strContains source "facebook" then "Facebook"
  else if strContains source "instagram" then "Instagram"
  else if strContains source "twitter" then "Twitter"
  else if strContains source "linkedin" then "LinkedIn"
  else if source = "direct" then "Direct"
  else if "http".toList <+: source.toList then
    match parseHostname source with
    | some host => replaceFirst host "www."
    | none => source
  else source

/-- Evaluation of `getEstimatedCost(source)` (src/index.js:2248). -/
def getEstimatedCost (source : String) : ℚ :=
  if source = "Google" then 500
  else if source = "Facebook" then 300
  else if source = "Instagram" then 200
  else if source = "Twitter" then 150
  else if source = "LinkedIn" then 400
  else if source = "Direct" then 0
  else 100

/-- Evaluation of `getEstimatedRevenue(source, visitors)` (src/index.js:2260). -/
def getEstimatedRevenue (source : String) (visitors : ℕ) : ℤ :=
  let rate : ℚ :=
    if source = "Google" then 4/100
    else if source = "Facebook" then 3/100
    else if source = "Instagram" then 25/1000
    else if source = "Twitter" then 2/100
    else if source = "LinkedIn" then 5/100
    else if source = "Direct" then 6/100
    else 2/100
  jsRound ((visitors : ℚ) * rate * 89)

/-- Accumulator entry of the `sourceStats` object: the two JS `Set`s as
insertion-ordered duplicate-free lists (`conversions` is a dead store). -/
structure SourceAcc where
  visitors : List String
  bounces : List String
deriving DecidableEq, Repr

/-- Set.add on the insertion-ordered list model. -/
def setAdd (l : List String) (x : String) : List String :=
  if x ∈ l then l else l ++ [x]

/-- One row of the `calculateTrafficSources` result. -/
structure TrafficSource where
  source : String
  visitors : ℕ
  bounceRate : ℚ
  conversionRate : ℚ
  cost : ℚ
  revenue : ℤ
deriving DecidableEq, Repr

/-- Update of `sourceStats[key]` for one event: record the visitor, and
record it as a bounce when it has exactly one event in the whole input. -/
def sourceUpd (pv : List RawEvent) (e : RawEvent) (a : SourceAcc) : SourceAcc :=
  let single := (pv.filter (fun p => p.visitor_id = e.visitor_id)).length = 1
  { visitors := setAdd a.visitors e.visitor_id
    bounces := if single then setAdd a.bounces e.visitor_id else a.bounces }

/-- Embedding of `calculateTrafficSources(pageViews)` (src/index.js:2193):
group events by source key, then emit one row per source sorted descending
by distinct visitor count (stable JS sort). -/
def calculateTrafficSources (pv : List RawEvent) : List TrafficSource :=
  if pv = [] then []
  else
    let stats := keyedFold ⟨[], []⟩ (fun e => some (sourceKey e)) (sourceUpd pv) [] pv
    let rows := stats.map (fun kv =>
      let totalVisitors : ℕ := kv.2.visitors.length
      let bounceRate : ℚ :=
        if totalVisitors > 0 then ((kv.2.bounces.length : ℚ) / (totalVisitors : ℚ)) * 100
        else 0
      { source := if kv.1 = "direct" then "Direct" else formatSource kv.1
        visitors := totalVisitors
        bounceRate := toFixed1 bounceRate
        conversionRate := 5/2
        cost := getEstimatedCost kv.1
        revenue := getEstimatedRevenue kv.1 totalVisitors : TrafficSource })
    rows.mergeSort (fun a b => b.visitors ≤ a.visitors)

/-- Stage names and the literal alternatives of the stage regexes of
`calculateConversionFunnel`. -/
def stagePatterns : List (String × List String) :=
  [("view-product", ["product", "item", "shop", "store"]),
   ("add-to-cart", ["cart", "basket", "add"]),
   ("checkout", ["checkout", "payment", "billing"]),
   ("purchase", ["success", "thank-you", "confirmation"])]

/-- Test of one stage regex against `pv.path.toLowerCase()`: the regexes
are alternations of literals, so the test is a substring check. -/
def matchesStage (pats : List String) (path : String) : Bool :=
  pats.any (fun p => decide (p.toList <:+: path.toList.map Char.toLower))

/-- One row of the `calculateConversionFunnel` result.  `dropOffRate` is a
`JSNum` because the division by `previousVisitors` has no zero guard. -/
structure FunnelStage where
  stage : String
  visitors : ℕ
  dropOffCount : ℤ
  dropOffRate : JSNum
deriving DecidableEq, Repr

/-- Loop body of the funnel construction: `prev` is `previousVisitors`,
`first` marks `index === 0`. -/
def buildFunnel : ℕ → Bool → List (String × ℕ) → List FunnelStage
  | _, _, [] => []
  | prev, first, (name, n) :: rest =>
    let dropOffCount : ℤ := if first then 0 else (prev : ℤ) - n
    let dropOffRate : JSNum :=
      if first then .num 0
      else jsNumToFixed1 ((jsDiv (dropOffCount : ℚ) (prev : ℚ)).mulPos 100)
    { stage := name, visitors := n, dropOffCount := dropOffCount
      dropOffRate := dropOffRate } :: buildFunnel n false rest

/-- Distinct visitors with at least one event whose path matches the stage
pattern (the `stageVisitors` sets of the source). -/
def stageVisitorCount (pv : List RawEvent) (pats : List String) : ℕ :=
  (dedupFirst ((pv.filter (fun e => matchesStage pats e.path)).map (·.visitor_id))).length

/-- Embedding of `calculateConversionFunnel(pageViews)` (src/index.js:2276). -/
def calculateConversionFunnel (pv : List RawEvent) : List FunnelStage :=
  if pv = [] then []
  else
    buildFunnel 0 true
      (stagePatterns.map (fun sp => (sp.1, stageVisitorCount pv sp.2)))

/-! ### Reference formulations used by the claims

The definitions below restate parts of the pipeline the way the spec
describes them (greedy 30-minute splitting of a sorted stream, per-path
counts); the theorems connect them to the embedded code. -/

/-- Time of the first event of a group (0 for the empty group). -/
def firstTimeOf (g : List RawEvent) : ℚ :=
  match g.head? with
  | some e => e.created_at
  | none => 0

/-- Time of the last event of a group (0 for the empty group). -/
def lastTimeOf (g : List RawEvent) : ℚ :=
  match g.getLast? with
  | some e => e.created_at
  | none => 0

/-- Greedy splitting of a time-sorted stream at gaps of more than 30
minutes from the end of the open group, as the spec describes sessions:
`cur` is the open group. -/
def splitAux (cur : List RawEvent) : List RawEvent → List (List RawEvent)
  | [] => [cur]
  | e :: rest =>
    if (e.created_at - lastTimeOf cur) / (1000 * 60) ≤ 30 then
      splitAux (cur ++ [e]) rest
    else
      cur :: splitAux [e] rest

/-- Greedy 30-minute session groups of a stream. -/
def splitGaps : List RawEvent → List (List RawEvent)
  | [] => []
  | e :: rest => splitAux [e] rest

/-- Session built from a group: starts at its first event, ends at its
last. -/
def sessionOfGroup (g : List RawEvent) : Session :=
  { startTime := firstTimeOf g, endTime := lastTimeOf g, events := g }

/-- Gap condition between two consecutive events: at most 30 minutes. -/
def withinGap (a b : RawEvent) : Prop :=
  (b.created_at - a.created_at) / (1000 * 60) ≤ 30

/-- Boundary condition between two consecutive sessions: the next session
starts more than 30 minutes after the previous one ends. -/
def boundaryGap (s s' : Session) : Prop :=
  ¬ ((firstTimeOf s'.events - lastTimeOf s.events) / (1000 * 60) ≤ 30)

/-- Ascending order of events by `created_at`. -/
def timeSorted (l : List RawEvent) : Prop :=
  List.Pairwise (fun a b => a.created_at ≤ b.created_at) l

/-- Number of visitors whose chronologically last event in the window has
path `url` — the exit count the spec describes. -/
def exitsCount (pv : List RawEvent) (url : String) : ℕ :=
  ((dedupFirst (pv.map (·.visitor_id))).filter (fun v =>
    (((sortByTime (pv.filter (fun e => e.visitor_id = v))).getLast?).map
      (·.path)) = some url)).length

/-- Percentage-change rule of the spec (rounded only on the general
branch; the special cases 100 and 0 are exact). -/
def trendRule (current previous : ℚ) : ℚ :=
  if previous = 0 then (if current > 0 then 100 else 0)
  else toFixed1 ((current - previous) / previous * 100)

/-- Distinct visitors of `pv` with an event matching the given stage
alternatives, as a finite set. -/
def stageVisitorSet (pv : List RawEvent) (pats : List String) : Finset String :=
  ((pv.filter (fun e => matchesStage pats e.path)).map (·.visitor_id)).toFinset

/-- Durations in seconds of the multi-event sessions (at least 2 events),
across all visitors. -/
def multiDurations (pv : List RawEvent) : List ℚ :=
  (((buildSessionMap pv).map (·.2)).flatten.filter
    (fun s => 2 ≤ s.events.length)).map (fun s => (s.endTime - s.startTime) / 1000)

/-! ### Characterization of the keyed folds

The interleaved `forEach` loops above are association-list folds; the
lemmas in this section show that the value finally stored under a key `k`
is the fold of the items whose key is `k`, in input order, and that the
keys come out in first-occurrence order without duplicates. -/


theorem keyedFold_nil {α β : Type} (dflt : β) (key : α → Option String)
    (μ : α → β → β) (m : List (String × β)) :
    keyedFold dflt key μ m [] = m := rfl

theorem keyedFold_cons {α β : Type} (dflt : β) (key : α → Option String)
    (μ : α → β → β) (m : List (String × β)) (i : α) (L : List α) :
    keyedFold dflt key μ m (i :: L) =
      keyedFold dflt key μ
        (match key i with
         | some k => updAssoc dflt k (μ i) m
         | none => m) L := rfl

theorem valOf_updAssoc {β : Type} (dflt : β) (k : String) (f : β → β)
    (m : List (String × β)) (k' : String) :
    valOf dflt (updAssoc dflt k f m) k' =
      if k = k' then f (valOf dflt m k') else valOf dflt m k' := by
  induction m with
  | nil =>
    by_cases h : k = k' <;> simp [updAssoc, valOf, List.find?, h]
  | cons kv rest ih =>
    obtain ⟨k0, v⟩ := kv
    by_cases h0 : k0 = k
    · subst h0
      by_cases h : k0 = k' <;> simp [updAssoc, valOf, List.find?, h]
    · by_cases h : k0 = k'
      · subst h
        have hne : ¬(k = k0) := fun he => h0 he.symm
        simp [updAssoc, valOf, List.find?, h0, hne]
      · simp only [updAssoc, if_neg h0, valOf, List.find?,
          decide_eq_false h, List.map]
        exact ih

theorem keys_updAssoc {β : Type} (dflt : β) (k : String) (f : β → β)
    (m : List (String × β)) :
    (updAssoc dflt k f m).map (·.1) = dedupStep (m.map (·.1)) k := by
  induction m with
  | nil => simp [updAssoc, dedupStep]
  | cons kv rest ih =>
    obtain ⟨k0, v⟩ := kv
    by_cases h0 : k0 = k
    · subst h0
      simp [updAssoc, dedupStep]
    · have hne : k ≠ k0 := fun he => h0 he.symm
      simp only [updAssoc, if_neg h0, List.map_cons, ih, dedupStep]
      by_cases hm : k ∈ rest.map (·.1)
      · rw [if_pos hm, if_pos (List.mem_cons.mpr (Or.inr hm))]
      · rw [if_neg hm, if_neg (by simp [List.mem_cons, hne, hm]),
          List.cons_append]

theorem valOf_keyedFold {α β : Type} (dflt : β) (key : α → Option String)
    (μ : α → β → β) (L : List α) (m : List (String × β)) (k : String) :
    valOf dflt (keyedFold dflt key μ m L) k =
      (L.filter (fun i => key i = some k)).foldl (fun a i => μ i a)
        (valOf dflt m k) := by
  induction L generalizing m with
  | nil => simp [keyedFold]
  | cons i L ih =>
    cases hk : key i with
    | none =>
      rw [keyedFold_cons]
      simp only [hk]
      rw [List.filter_cons_of_neg (by simp [hk]), ih]
    | some k0 =>
      rw [keyedFold_cons]
      simp only [hk]
      by_cases hkk : k0 = k
      · rw [List.filter_cons_of_pos (by simp [hk, hkk]), List.foldl_cons,
          ih, valOf_updAssoc, if_pos hkk]
      · rw [List.filter_cons_of_neg (by simp [hk, hkk]),
          ih, valOf_updAssoc, if_neg hkk]

theorem keys_keyedFold {α β : Type} (dflt : β) (key : α → Option String)
    (μ : α → β → β) (L : List α) (m : List (String × β)) :
    (keyedFold dflt key μ m L).map (·.1) =
      (L.filterMap key).foldl dedupStep (m.map (·.1)) := by
  induction L generalizing m with
  | nil => simp [keyedFold]
  | cons i L ih =>
    cases hk : key i with
    | none =>
      rw [keyedFold_cons]
      simp only [hk, List.filterMap_cons_none hk]
      exact ih m
    | some k0 =>
      rw [keyedFold_cons]
      simp only [hk]
      rw [ih, keys_updAssoc,
        show (i :: L).filterMap key = k0 :: L.filterMap key from
          List.filterMap_cons_some hk,
        List.foldl_cons]

theorem mem_foldl_dedupStep (l : List String) (acc : List String) (x : String) :
    x ∈ l.foldl dedupStep acc ↔ x ∈ acc ∨ x ∈ l := by
  induction l generalizing acc with
  | nil => simp
  | cons y l ih =>
    simp only [List.foldl_cons, ih, dedupStep]
    by_cases hy : y ∈ acc
    · simp only [if_pos hy, List.mem_cons]
      constructor
      · rintro (h | h)
        · exact Or.inl h
        · exact Or.inr (Or.inr h)
      · rintro (h | h | h)
        · exact Or.inl h
        · exact Or.inl (h ▸ hy)
        · exact Or.inr h
    · simp only [if_neg hy, List.mem_append, List.mem_singleton, List.mem_cons]
      tauto

theorem mem_dedupFirst (l : List String) (x : String) :
    x ∈ dedupFirst l ↔ x ∈ l := by
  simp [dedupFirst, mem_foldl_dedupStep]

theorem nodup_foldl_dedupStep (l : List String) (acc : List String)
    (h : acc.Nodup) : (l.foldl dedupStep acc).Nodup := by
  induction l generalizing acc with
  | nil => simpa
  | cons y l ih =>
    simp only [List.foldl_cons, dedupStep]
    by_cases hy : y ∈ acc
    · rw [if_pos hy]; exact ih _ h
    · rw [if_neg hy]
      refine ih _ (h.append (List.nodup_singleton y) ?_)
      intro a ha hb
      rw [List.mem_singleton] at hb
      subst hb
      exact hy ha

theorem nodup_dedupFirst (l : List String) : (dedupFirst l).Nodup :=
  nodup_foldl_dedupStep l [] List.nodup_nil

theorem valOf_of_mem {β : Type} (dflt : β) {m : List (String × β)}
    (hnd : (m.map (·.1)).Nodup) {k : String} {v : β} (hm : (k, v) ∈ m) :
    valOf dflt m k = v := by
  induction m with
  | nil => cases hm
  | cons kv rest ih =>
    obtain ⟨k0, v0⟩ := kv
    simp only [List.map_cons, List.nodup_cons] at hnd
    rcases List.mem_cons.mp hm with h | h
    · cases h
      simp [valOf, List.find?]
    · have hk0 : ¬(k0 = k) := by
        intro he
        apply hnd.1
        rw [he]
        exact List.mem_map.mpr ⟨(k, v), h, rfl⟩
      simp only [valOf, List.find?, decide_eq_false hk0]
      exact ih hnd.2 h

theorem filterMap_someComp {α : Type} (f : α → String) (l : List α) :
    l.filterMap (fun i => some (f i)) = l.map f := by
  induction l with
  | nil => rfl
  | cons x l ih => simp [List.filterMap_cons, ih]

theorem assoc_self_desc {β : Type} (dflt : β) {m : List (String × β)}
    (hnd : (m.map (·.1)).Nodup) :
    m = (m.map (·.1)).map (fun k => (k, valOf dflt m k)) := by
  induction m with
  | nil => rfl
  | cons kv rest ih =>
    obtain ⟨k0, v0⟩ := kv
    simp only [List.map_cons, List.nodup_cons] at hnd
    have hhead : valOf dflt ((k0, v0) :: rest) k0 = v0 := by
      simp [valOf, List.find?]
    have htail : ∀ k ∈ rest.map (·.1),
        valOf dflt ((k0, v0) :: rest) k = valOf dflt rest k := by
      intro k hk
      have hk0 : ¬(k0 = k) := fun he => hnd.1 (he ▸ hk)
      simp [valOf, List.find?, decide_eq_false hk0]
    calc (k0, v0) :: rest
        = (k0, v0) :: (rest.map (·.1)).map (fun k => (k, valOf dflt rest k)) := by
          rw [← ih hnd.2]
      _ = (k0, valOf dflt ((k0, v0) :: rest) k0) ::
            (rest.map (·.1)).map (fun k => (k, valOf dflt ((k0, v0) :: rest) k)) := by
          rw [hhead]
          congr 1
          exact (List.map_congr_left (fun k hk => by rw [htail k hk])).symm
      _ = _ := by simp

theorem keyedFold_someKey_eq {α β : Type} (dflt : β) (f : α → String)
    (μ : α → β → β) (L : List α) :
    keyedFold dflt (fun i => some (f i)) μ [] L =
      (dedupFirst (L.map f)).map (fun k =>
        (k, (L.filter (fun i => f i = k)).foldl (fun a i => μ i a) dflt)) := by
  have hkeys : (keyedFold dflt (fun i => some (f i)) μ [] L).map (·.1) =
      dedupFirst (L.map f) := by
    rw [keys_keyedFold, filterMap_someComp]
    rfl
  have hnd : ((keyedFold dflt (fun i => some (f i)) μ [] L).map (·.1)).Nodup := by
    rw [hkeys]; exact nodup_dedupFirst _
  calc keyedFold dflt (fun i => some (f i)) μ [] L
      = ((keyedFold dflt (fun i => some (f i)) μ [] L).map (·.1)).map
          (fun k => (k, valOf dflt (keyedFold dflt (fun i => some (f i)) μ [] L) k)) :=
        assoc_self_desc dflt hnd
    _ = (dedupFirst (L.map f)).map
          (fun k => (k, valOf dflt (keyedFold dflt (fun i => some (f i)) μ [] L) k)) := by
        rw [hkeys]
    _ = _ := by
        refine List.map_congr_left (fun k hk => ?_)
        refine congrArg (fun x => (k, x)) ?_
        rw [valOf_keyedFold]
        have hfil : L.filter (fun i => some (f i) = some k) =
            L.filter (fun i => f i = k) :=
          List.filter_congr (fun i _ => by simp)
        rw [hfil]
        rfl

theorem buildSessionMap_eq (pv : List RawEvent) :
    buildSessionMap pv =
      (dedupFirst (pv.map (·.visitor_id))).map (fun v =>
        (v, buildSessions (pv.filter (fun e => e.visitor_id = v)))) := by
  rw [buildSessionMap, keyedFold_someKey_eq]
  rfl

theorem foldl_push {α : Type} (l acc : List α) :
    l.foldl (fun a i => a ++ [i]) acc = acc ++ l := by
  induction l generalizing acc with
  | nil => simp
  | cons x l ih => simp [List.foldl_cons, ih]

theorem visitorPagesOf_eq (pv : List RawEvent) :
    visitorPagesOf pv =
      (dedupFirst (pv.map (·.visitor_id))).map (fun v =>
        (v, pv.filter (fun e => e.visitor_id = v))) := by
  rw [visitorPagesOf, keyedFold_someKey_eq]
  refine List.map_congr_left (fun v hv => ?_)
  refine congrArg (fun x => (v, x)) ?_
  rw [foldl_push]
  simp

/-! ### Claim theorems -/

theorem toFixed1_calculateChange (c p : ℚ) :
    toFixed1 (calculateChange c p) = trendRule c p := by
  unfold calculateChange trendRule
  by_cases hp : p = 0
  · by_cases hc : c > 0
    · simp only [if_pos hp, if_pos hc]
      norm_num [toFixed1, jsRound]
    · simp only [if_pos hp, if_neg hc]
      norm_num [toFixed1, jsRound]
  · simp [hp]

/-- C5: with no previous-period stats every trend field is 0; with
previous stats each of the six metrics follows the percentage-change rule
`(current − previous) / previous × 100` rounded to one decimal, reporting
exactly 100 when the previous value is 0 and the current is positive, and
0 when both are 0. -/
theorem C5_trend_rule (cur prev : Stats) :
    calculateTrends cur none =
      { bounceRate := 0, avgSessionDuration := 0, pagesPerVisit := 0,
        totalVisitors := 0, newVisitors := 0, returningVisitors := 0 } ∧
    calculateTrends cur (some prev) =
      { bounceRate := trendRule cur.bounceRate prev.bounceRate
        avgSessionDuration :=
          trendRule (cur.avgSessionDuration : ℚ) (prev.avgSessionDuration : ℚ)
        pagesPerVisit := trendRule cur.pagesPerVisit prev.pagesPerVisit
        totalVisitors := trendRule (cur.totalVisitors : ℚ) (prev.totalVisitors : ℚ)
        newVisitors := trendRule (cur.newVisitors : ℚ) (prev.newVisitors : ℚ)
        returningVisitors :=
          trendRule (cur.returningVisitors : ℚ) (prev.returningVisitors : ℚ) } := by
  exact ⟨rfl, by simp [calculateTrends, toFixed1_calculateChange]⟩

/-- C2: for visitor "a" with events at minutes 0, 5 and 40 and visitor "b"
with one event at minute 0 (times in ms), the session map holds two
sessions for "a" — events at {0, 5} and at {40} — and one for "b", and the
aggregates are totalSessions 3, totalVisitors 2 and bounceRate 66.7 (the
two single-event sessions over three sessions, times 100, to one
decimal). -/
theorem C2_scenario :
    buildSessionMap
        [⟨"a", 0, "/", none, none, 0⟩, ⟨"b", 0, "/", none, none, 0⟩,
         ⟨"a", 300000, "/", none, none, 0⟩, ⟨"a", 2400000, "/", none, none, 0⟩] =
      [("a",
        [⟨0, 300000, [⟨"a", 0, "/", none, none, 0⟩, ⟨"a", 300000, "/", none, none, 0⟩]⟩,
         ⟨2400000, 2400000, [⟨"a", 2400000, "/", none, none, 0⟩]⟩]),
       ("b", [⟨0, 0, [⟨"b", 0, "/", none, none, 0⟩]⟩])] ∧
    (calculatePeriodStats
        [⟨"a", 0, "/", none, none, 0⟩, ⟨"b", 0, "/", none, none, 0⟩,
         ⟨"a", 300000, "/", none, none, 0⟩,
         ⟨"a", 2400000, "/", none, none, 0⟩] []).totalSessions = 3 ∧
    (calculatePeriodStats
        [⟨"a", 0, "/", none, none, 0⟩, ⟨"b", 0, "/", none, none, 0⟩,
         ⟨"a", 300000, "/", none, none, 0⟩,
         ⟨"a", 2400000, "/", none, none, 0⟩] []).totalVisitors = 2 ∧
    (calculatePeriodStats
        [⟨"a", 0, "/", none, none, 0⟩, ⟨"b", 0, "/", none, none, 0⟩,
         ⟨"a", 300000, "/", none, none, 0⟩,
         ⟨"a", 2400000, "/", none, none, 0⟩] []).bounceRate = 667 / 10 := by
  refine ⟨?_, ?_, rfl, ?_⟩ <;>
    norm_num [calculatePeriodStats, buildSessionMap, keyedFold, updAssoc, addEvent,
      attachEvent, lastEventTime, valOf, dedupStep, dedupFirst, toFixed1, jsRound,
      List.filter]

/-- C3: the funnel's drop-off division is not guarded against a zero
`previousVisitors`: on the one-event input visiting "/cart" the
add-to-cart stage divides −1 by 0 and reports dropOffRate −Infinity, and
the purchase stage divides 0 by 0 and reports NaN — not the finite 0 in
[0, 100] the spec requires of every ratio. -/
theorem C3_dropOffRate_division_by_zero :
    calculateConversionFunnel [⟨"v", 0, "/cart", none, none, 0⟩] =
      [⟨"view-product", 0, 0, .num 0⟩,
       ⟨"add-to-cart", 1, -1, .negInf⟩,
       ⟨"checkout", 0, 1, .num 100⟩,
       ⟨"purchase", 0, 0, .nan⟩] := by
  have h1 : stageVisitorCount [⟨"v", 0, "/cart", none, none, 0⟩]
      ["product", "item", "shop", "store"] = 0 := rfl
  have h2 : stageVisitorCount [⟨"v", 0, "/cart", none, none, 0⟩]
      ["cart", "basket", "add"] = 1 := rfl
  have h3 : stageVisitorCount [⟨"v", 0, "/cart", none, none, 0⟩]
      ["checkout", "payment", "billing"] = 0 := rfl
  have h4 : stageVisitorCount [⟨"v", 0, "/cart", none, none, 0⟩]
      ["success", "thank-you", "confirmation"] = 0 := rfl
  norm_num [calculateConversionFunnel, stagePatterns, buildFunnel, h1, h2, h3, h4,
    jsDiv, JSNum.mulPos, jsNumToFixed1, toFixed1, jsRound]

theorem length_dedupFirst_eq_card (l : List String) :
    (dedupFirst l).length = l.toFinset.card := by
  rw [← List.toFinset_card_of_nodup (nodup_dedupFirst l)]
  congr 1
  ext x
  simp [mem_dedupFirst]

theorem stageCount_card (pv : List RawEvent) (pats : List String) :
    stageVisitorCount pv pats = (stageVisitorSet pv pats).card := by
  unfold stageVisitorCount stageVisitorSet
  exact length_dedupFirst_eq_card _

/-- C10: the funnel is empty for the empty input; for any non-empty input
it has exactly the four stages view-product, add-to-cart, checkout,
purchase in that order, the first stage always reports dropOffCount 0 and
dropOffRate 0, and each stage's visitor count is the number of distinct
visitors having at least one event whose lowercased path contains one of
that stage's literal pattern alternatives — each stage judged
independently, with no sequential enforcement. -/
theorem C10_funnel_shape :
    calculateConversionFunnel ([] : List RawEvent) = [] ∧
    ∀ pv : List RawEvent, pv ≠ [] →
      (calculateConversionFunnel pv).map (·.stage) =
        ["view-product", "add-to-cart", "checkout", "purchase"] ∧
      (calculateConversionFunnel pv).map (·.visitors) =
        [(stageVisitorSet pv ["product", "item", "shop", "store"]).card,
         (stageVisitorSet pv ["cart", "basket", "add"]).card,
         (stageVisitorSet pv ["checkout", "payment", "billing"]).card,
         (stageVisitorSet pv ["success", "thank-you", "confirmation"]).card] ∧
      (calculateConversionFunnel pv).head?.map (fun f => (f.dropOffCount, f.dropOffRate)) =
        some (0, JSNum.num 0) := by
  refine ⟨rfl, fun pv hpv => ?_⟩
  simp only [calculateConversionFunnel, if_neg hpv, stagePatterns, List.map_cons,
    List.map_nil, buildFunnel]
  simp [stageCount_card]

theorem calculateRealStats_lastUpdated (pv : List RawEvent) (tr : String)
    (hist histPrev : List String) (now : ℚ) :
    (calculateRealStats pv tr hist histPrev now).lastUpdated = now := by
  by_cases h1 : pv = []
  · simp [calculateRealStats, h1, getEmptyStats]
  · simp only [calculateRealStats, if_neg h1]
    split_ifs <;> rfl

/-- C9: the counterexample — the same event data computed at two clock
times yields different result objects, because `lastUpdated` records the
wall clock of the call; the results are not byte-identical. -/
theorem C9_lastUpdated_differs :
    calculateRealStats [⟨"v", 1000000, "/", none, none, 0⟩] "24h" [] [] 1000000 ≠
      calculateRealStats [⟨"v", 1000000, "/", none, none, 0⟩] "24h" [] [] 2000000 := by
  intro h
  have h1 := calculateRealStats_lastUpdated
    [⟨"v", 1000000, "/", none, none, 0⟩] "24h" [] [] 1000000
  rw [h, calculateRealStats_lastUpdated] at h1
  norm_num at h1

/-- C9 (amended): recomputation over identical underlying data is
deterministic up to the clock: whenever the two calls select the same
events into the current and previous windows (in particular at the same
clock time), the statistics, trends and realData flag coincide, and
`lastUpdated` equals each call's own clock, which is the only field free
to differ. -/
theorem C9_idempotent_up_to_clock (pv : List RawEvent) (tr : String)
    (hist histPrev : List String) (t1 t2 : ℚ)
    (hcur : pv.filter (fun e => getStartDate tr t1 ≤ e.created_at) =
      pv.filter (fun e => getStartDate tr t2 ≤ e.created_at))
    (hprev : pv.filter (fun e =>
        getPreviousPeriodStart tr t1 ≤ e.created_at ∧ e.created_at < getStartDate tr t1) =
      pv.filter (fun e =>
        getPreviousPeriodStart tr t2 ≤ e.created_at ∧ e.created_at < getStartDate tr t2)) :
    (calculateRealStats pv tr hist histPrev t1).stats =
      (calculateRealStats pv tr hist histPrev t2).stats ∧
    (calculateRealStats pv tr hist histPrev t1).trends =
      (calculateRealStats pv tr hist histPrev t2).trends ∧
    (calculateRealStats pv tr hist histPrev t1).realData =
      (calculateRealStats pv tr hist histPrev t2).realData ∧
    (calculateRealStats pv tr hist histPrev t1).lastUpdated = t1 ∧
    (calculateRealStats pv tr hist histPrev t2).lastUpdated = t2 := by
  refine ⟨?_, ?_, ?_, calculateRealStats_lastUpdated .., calculateRealStats_lastUpdated ..⟩ <;>
  · by_cases hpv : pv = []
    · simp [calculateRealStats, hpv, getEmptyStats]
    · simp only [calculateRealStats, if_neg hpv]
      rw [hcur, hprev]
      by_cases hfil : pv.filter (fun e => getStartDate tr t2 ≤ e.created_at) = []
      · simp [hfil, getEmptyStats]
      · simp [hfil]

theorem C10_funnel_shape_witness :
    ([⟨"v", 0, "/cart", none, none, 0⟩] : List RawEvent) ≠ [] ∧
    (calculateConversionFunnel [⟨"v", 0, "/cart", none, none, 0⟩]).map (·.stage) =
      ["view-product", "add-to-cart", "checkout", "purchase"] :=
  ⟨by decide, (C10_funnel_shape.2 _ (by decide)).1⟩

theorem C9_idempotent_witness :
    (List.filter (fun e => getStartDate "24h" 1000000 ≤ e.created_at)
        [(⟨"v", 1000000, "/", none, none, 0⟩ : RawEvent)] =
      List.filter (fun e => getStartDate "24h" 2000000 ≤ e.created_at)
        [(⟨"v", 1000000, "/", none, none, 0⟩ : RawEvent)]) ∧
    (List.filter (fun e => getPreviousPeriodStart "24h" 1000000 ≤ e.created_at ∧
        e.created_at < getStartDate "24h" 1000000)
        [(⟨"v", 1000000, "/", none, none, 0⟩ : RawEvent)] =
      List.filter (fun e => getPreviousPeriodStart "24h" 2000000 ≤ e.created_at ∧
        e.created_at < getStartDate "24h" 2000000)
        [(⟨"v", 1000000, "/", none, none, 0⟩ : RawEvent)]) ∧
    (calculateRealStats [⟨"v", 1000000, "/", none, none, 0⟩] "24h" [] [] 1000000).stats =
      (calculateRealStats [⟨"v", 1000000, "/", none, none, 0⟩] "24h" [] [] 2000000).stats := by
  have hc : List.filter (fun e => getStartDate "24h" 1000000 ≤ e.created_at)
        [(⟨"v", 1000000, "/", none, none, 0⟩ : RawEvent)] =
      List.filter (fun e => getStartDate "24h" 2000000 ≤ e.created_at)
        [(⟨"v", 1000000, "/", none, none, 0⟩ : RawEvent)] := by
    norm_num [getStartDate, List.filter]
  have hp : List.filter (fun e => getPreviousPeriodStart "24h" 1000000 ≤ e.created_at ∧
        e.created_at < getStartDate "24h" 1000000)
        [(⟨"v", 1000000, "/", none, none, 0⟩ : RawEvent)] =
      List.filter (fun e => getPreviousPeriodStart "24h" 2000000 ≤ e.created_at ∧
        e.created_at < getStartDate "24h" 2000000)
        [(⟨"v", 1000000, "/", none, none, 0⟩ : RawEvent)] := by
    norm_num [getStartDate, getPreviousPeriodStart, List.filter]
  exact ⟨hc, hp,
    (C9_idempotent_up_to_clock [⟨"v", 1000000, "/", none, none, 0⟩] "24h" [] [] 1000000
      2000000 hc hp).1⟩

/-- C4: avgSessionDuration is the rounded mean, in seconds, of session
duration (end − start) taken only over sessions with at least two events;
single-event sessions count in neither numerator nor denominator, and the
value is 0 when no multi-event session exists. -/
theorem C4_avgSessionDuration (pv : List RawEvent) (hist : List String) :
    (calculatePeriodStats pv hist).avgSessionDuration =
      if (multiDurations pv).length = 0 then 0
      else jsRound ((multiDurations pv).sum / ((multiDurations pv).length : ℚ)) := by
  have hfe : ((buildSessionMap pv).map (·.2)).flatten.filter
        (fun s => 2 ≤ s.events.length) =
      ((buildSessionMap pv).map (·.2)).flatten.filter
        (fun s => 1 < s.events.length) :=
    List.filter_congr (fun s _ => by simp [Nat.lt_iff_add_one_le])
  have hlen : (multiDurations pv).length =
      ((buildSessionMap pv).map
        (fun kv => (kv.2.filter (fun s => 1 < s.events.length)).length)).sum := by
    rw [multiDurations, List.length_map, hfe, List.filter_flatten,
      List.length_flatten, List.map_map, List.map_map]
    rfl
  have hsum : (multiDurations pv).sum =
      ((buildSessionMap pv).map (fun kv =>
        ((kv.2.filter (fun s => 1 < s.events.length)).map
          (fun s => (s.endTime - s.startTime) / 1000)).sum)).sum := by
    rw [multiDurations, hfe, List.filter_flatten, List.map_flatten,
      List.sum_flatten, List.map_map, List.map_map, List.map_map]
    rfl
  simp only [calculatePeriodStats]
  rw [hlen, hsum]
  by_cases hc : ((buildSessionMap pv).map
      (fun kv => (kv.2.filter (fun s => 1 < s.events.length)).length)).sum = 0
  · simp [hc]
  · simp [hc, Nat.pos_of_ne_zero hc]

theorem mem_vid_iff_filter_ne (l : List RawEvent) (v : String) :
    v ∈ l.map (·.visitor_id) ↔ l.filter (fun e => e.visitor_id = v) ≠ [] := by
  constructor
  · intro h
    obtain ⟨e, he, hev⟩ := List.mem_map.mp h
    intro hnil
    have hmem : e ∈ l.filter (fun e2 => e2.visitor_id = v) :=
      List.mem_filter.mpr ⟨he, by simp [hev]⟩
    simp [hnil] at hmem
  · intro h
    obtain ⟨e, he⟩ := List.exists_mem_of_ne_nil _ h
    have hf := List.mem_filter.mp he
    exact List.mem_map.mpr ⟨e, hf.1, of_decide_eq_true hf.2⟩

theorem sum_map_addFn (K : List String) (f g : String → ℕ) :
    (K.map (fun v => f v + g v)).sum = (K.map f).sum + (K.map g).sum := by
  induction K with
  | nil => rfl
  | cons k K ih => simp [ih]; omega

theorem sum_indicator (K : List String) (x : String) :
    (K.map (fun v => if x = v then 1 else 0)).sum = K.count x := by
  induction K with
  | nil => rfl
  | cons k K ih =>
    by_cases h : x = k
    · subst h
      simp [List.count_cons, ih]
      omega
    · have h2 : ¬(k = x) := fun hh => h hh.symm
      simp [List.count_cons, ih, h, h2]

theorem sum_filter_lengths (K : List String) (l : List RawEvent)
    (hnd : K.Nodup) (hcov : ∀ e ∈ l, e.visitor_id ∈ K) :
    (K.map (fun v => (l.filter (fun e => e.visitor_id = v)).length)).sum = l.length := by
  induction l with
  | nil => simp
  | cons e l ih =>
    have hm : e.visitor_id ∈ K := hcov e (List.mem_cons_self e l)
    have hstep : ∀ v ∈ K, ((e :: l).filter (fun x => x.visitor_id = v)).length =
        (l.filter (fun x => x.visitor_id = v)).length +
          (if e.visitor_id = v then 1 else 0) := by
      intro v _
      by_cases h : e.visitor_id = v <;> simp [List.filter_cons, h]
    rw [List.map_congr_left hstep, sum_map_addFn, sum_indicator,
      ih (fun x hx => hcov x (List.mem_cons_of_mem e hx)),
      List.count_eq_one_of_mem hnd hm, List.length_cons]

/-- C7 (amended): the aggregate statistics are invariant under any
reordering of the input that preserves each visitor's own event order —
they depend only on the per-visitor event subsequences.  (The session
derivation is not invariant under arbitrary permutations, because events
are processed in input order without sorting; see the counterexample.) -/
theorem C7_visitor_subsequence_invariance (pv1 pv2 : List RawEvent)
    (hist : List String)
    (hsub : ∀ v ∈ pv1.map (·.visitor_id) ++ pv2.map (·.visitor_id),
      pv1.filter (fun e => e.visitor_id = v) = pv2.filter (fun e => e.visitor_id = v)) :
    calculatePeriodStats pv1 hist = calculatePeriodStats pv2 hist := by
  have hall : ∀ v, pv1.filter (fun e => e.visitor_id = v) =
      pv2.filter (fun e => e.visitor_id = v) := by
    intro v
    by_cases hv : v ∈ pv1.map (·.visitor_id) ++ pv2.map (·.visitor_id)
    · exact hsub v hv
    · rw [List.mem_append] at hv
      push_neg at hv
      have h1 : pv1.filter (fun e => e.visitor_id = v) = [] := by
        rw [List.filter_eq_nil_iff]
        intro e he hev
        exact hv.1 (List.mem_map.mpr ⟨e, he, of_decide_eq_true hev⟩)
      have h2 : pv2.filter (fun e => e.visitor_id = v) = [] := by
        rw [List.filter_eq_nil_iff]
        intro e he hev
        exact hv.2 (List.mem_map.mpr ⟨e, he, of_decide_eq_true hev⟩)
      rw [h1, h2]
  have hperm : (dedupFirst (pv1.map (·.visitor_id))).Perm
      (dedupFirst (pv2.map (·.visitor_id))) := by
    refine List.perm_of_nodup_nodup_toFinset_eq (nodup_dedupFirst _)
      (nodup_dedupFirst _) ?_
    ext v
    simp only [List.mem_toFinset, mem_dedupFirst]
    rw [mem_vid_iff_filter_ne, mem_vid_iff_filter_ne, hall v]
  have hsum : ∀ {γ : Type} [AddCommMonoid γ] (F : List Session → γ),
      ((dedupFirst (pv1.map (·.visitor_id))).map (fun v =>
        F (buildSessions (pv1.filter (fun e => e.visitor_id = v))))).sum =
      ((dedupFirst (pv2.map (·.visitor_id))).map (fun v =>
        F (buildSessions (pv2.filter (fun e => e.visitor_id = v))))).sum := by
    intro γ inst F
    have h1 : (dedupFirst (pv1.map (·.visitor_id))).map (fun v =>
          F (buildSessions (pv1.filter (fun e => e.visitor_id = v)))) =
        (dedupFirst (pv1.map (·.visitor_id))).map (fun v =>
          F (buildSessions (pv2.filter (fun e => e.visitor_id = v)))) :=
      List.map_congr_left (fun v _ => by rw [hall v])
    rw [h1]
    exact (hperm.map _).sum_eq
  have hlen12 : pv1.length = pv2.length := by
    have hcov1 : ∀ e ∈ pv1, e.visitor_id ∈ dedupFirst (pv1.map (·.visitor_id)) :=
      fun e he => (mem_dedupFirst _ _).mpr (List.mem_map.mpr ⟨e, he, rfl⟩)
    have hcov2 : ∀ e ∈ pv2, e.visitor_id ∈ dedupFirst (pv2.map (·.visitor_id)) :=
      fun e he => (mem_dedupFirst _ _).mpr (List.mem_map.mpr ⟨e, he, rfl⟩)
    have e1 := sum_filter_lengths _ pv1 (nodup_dedupFirst (pv1.map (·.visitor_id))) hcov1
    have e2 := sum_filter_lengths _ pv2 (nodup_dedupFirst (pv2.map (·.visitor_id))) hcov2
    calc pv1.length
        = ((dedupFirst (pv1.map (·.visitor_id))).map (fun v =>
            (pv1.filter (fun e => e.visitor_id = v)).length)).sum := e1.symm
      _ = ((dedupFirst (pv1.map (·.visitor_id))).map (fun v =>
            (pv2.filter (fun e => e.visitor_id = v)).length)).sum := by
          exact congrArg List.sum (List.map_congr_left fun v _ => by rw [hall v])
      _ = ((dedupFirst (pv2.map (·.visitor_id))).map (fun v =>
            (pv2.filter (fun e => e.visitor_id = v)).length)).sum :=
          (hperm.map _).sum_eq
      _ = pv2.length := e2
  have hcount : (dedupFirst (pv1.map (·.visitor_id))).countP (fun v => v ∈ hist) =
      (dedupFirst (pv2.map (·.visitor_id))).countP (fun v => v ∈ hist) :=
    hperm.countP_eq _
  have hlenK : (dedupFirst (pv1.map (·.visitor_id))).length =
      (dedupFirst (pv2.map (·.visitor_id))).length := hperm.length_eq
  simp only [calculatePeriodStats, buildSessionMap_eq, List.map_map, Function.comp_def]
  rw [hlen12, hcount, hlenK,
    hsum (fun ss => ss.length),
    hsum (fun ss => ((ss.filter (fun s => s.events.length = 1)).length : ℚ)),
    hsum (fun ss => ((ss.filter (fun s => 1 < s.events.length)).map
      (fun s => (s.endTime - s.startTime) / 1000)).sum),
    hsum (fun ss => (ss.filter (fun s => 1 < s.events.length)).length)]

/-- C7 counterexample: the input list [t=0, t=35min, t=5min] for one
visitor is a permutation of its time-sorted version [t=0, t=5min,
t=35min], yet the unsorted order yields 2 sessions and the sorted order 1
— the derivation is not order-independent, because the code never sorts
by created_at. -/
theorem C7_not_order_independent :
    ([⟨"a", 0, "/", none, none, 0⟩, ⟨"a", 2100000, "/", none, none, 0⟩,
      ⟨"a", 300000, "/", none, none, 0⟩] : List RawEvent).Perm
      [⟨"a", 0, "/", none, none, 0⟩, ⟨"a", 300000, "/", none, none, 0⟩,
       ⟨"a", 2100000, "/", none, none, 0⟩] ∧
    (calculatePeriodStats
      [⟨"a", 0, "/", none, none, 0⟩, ⟨"a", 2100000, "/", none, none, 0⟩,
       ⟨"a", 300000, "/", none, none, 0⟩] []).totalSessions = 2 ∧
    (calculatePeriodStats
      [⟨"a", 0, "/", none, none, 0⟩, ⟨"a", 300000, "/", none, none, 0⟩,
       ⟨"a", 2100000, "/", none, none, 0⟩] []).totalSessions = 1 := by
  refine ⟨List.Perm.cons _ (List.Perm.swap _ _ _), ?_, ?_⟩ <;>
    norm_num [calculatePeriodStats, buildSessionMap, keyedFold, updAssoc, addEvent,
      attachEvent, lastEventTime, valOf, dedupStep, dedupFirst, List.filter]

theorem C7_visitor_subsequence_invariance_witness :
    (∀ v ∈ ([⟨"a", 0, "/", none, none, 0⟩, ⟨"b", 0, "/", none, none, 0⟩,
        ⟨"a", 300000, "/", none, none, 0⟩] : List RawEvent).map (·.visitor_id) ++
        ([⟨"b", 0, "/", none, none, 0⟩, ⟨"a", 0, "/", none, none, 0⟩,
          ⟨"a", 300000, "/", none, none, 0⟩] : List RawEvent).map (·.visitor_id),
      ([⟨"a", 0, "/", none, none, 0⟩, ⟨"b", 0, "/", none, none, 0⟩,
        ⟨"a", 300000, "/", none, none, 0⟩] : List RawEvent).filter
          (fun e => e.visitor_id = v) =
      ([⟨"b", 0, "/", none, none, 0⟩, ⟨"a", 0, "/", none, none, 0⟩,
        ⟨"a", 300000, "/", none, none, 0⟩] : List RawEvent).filter
          (fun e => e.visitor_id = v)) ∧
    calculatePeriodStats
      [⟨"a", 0, "/", none, none, 0⟩, ⟨"b", 0, "/", none, none, 0⟩,
       ⟨"a", 300000, "/", none, none, 0⟩] [] =
    calculatePeriodStats
      [⟨"b", 0, "/", none, none, 0⟩, ⟨"a", 0, "/", none, none, 0⟩,
       ⟨"a", 300000, "/", none, none, 0⟩] [] := by
  have hs : ∀ v ∈ ([⟨"a", 0, "/", none, none, 0⟩, ⟨"b", 0, "/", none, none, 0⟩,
        ⟨"a", 300000, "/", none, none, 0⟩] : List RawEvent).map (·.visitor_id) ++
        ([⟨"b", 0, "/", none, none, 0⟩, ⟨"a", 0, "/", none, none, 0⟩,
          ⟨"a", 300000, "/", none, none, 0⟩] : List RawEvent).map (·.visitor_id),
      ([⟨"a", 0, "/", none, none, 0⟩, ⟨"b", 0, "/", none, none, 0⟩,
        ⟨"a", 300000, "/", none, none, 0⟩] : List RawEvent).filter
          (fun e => e.visitor_id = v) =
      ([⟨"b", 0, "/", none, none, 0⟩, ⟨"a", 0, "/", none, none, 0⟩,
        ⟨"a", 300000, "/", none, none, 0⟩] : List RawEvent).filter
          (fun e => e.visitor_id = v) := by
    intro v hv
    simp only [List.map_cons, List.map_nil, List.mem_append, List.mem_cons,
      List.not_mem_nil, or_false] at hv
    rcases hv with hv | hv <;> rcases hv with hv | hv | hv <;> subst hv <;> rfl
  exact ⟨hs, C7_visitor_subsequence_invariance _ _ [] hs⟩

theorem sourceFold_visitors (pv : List RawEvent) (L : List RawEvent) (a : SourceAcc) :
    (L.foldl (fun acc e => sourceUpd pv e acc) a).visitors =
      (L.map (·.visitor_id)).foldl dedupStep a.visitors := by
  induction L generalizing a with
  | nil => rfl
  | cons e L ih =>
    rw [List.foldl_cons, ih, List.map_cons, List.foldl_cons]
    rfl

/-- C8: the traffic-source key of an event is its truthy utm_source, else
its truthy referrer, else "direct"; labels containing "google",
"facebook", "instagram", "twitter" or "linkedin" (checked in that order)
map to the canonical display names; an http(s) URL that is none of those
brands is reduced to its bare hostname (the hostname with a first "www."
removed); anything else passes through unchanged; every result row's
visitors field is the distinct visitor count of its source key; the rows
are sorted descending by that count; and the referrer
https://www.google.com/search with no utm_source is labeled "Google". -/
theorem C8_traffic_sources :
    (∀ (e : RawEvent) (s : String), e.utm_source = some s → s ≠ "" →
      sourceKey e = s) ∧
    (∀ (e : RawEvent) (r : String),
      (e.utm_source = none ∨ e.utm_source = some "") →
      e.referrer = some r → r ≠ "" → sourceKey e = r) ∧
    (∀ e : RawEvent,
      (e.utm_source = none ∨ e.utm_source = some "") →
      (e.referrer = none ∨ e.referrer = some "") → sourceKey e = "direct") ∧
    (∀ s : String, strContains s "google" = true → formatSource s = "Google") ∧
    (∀ s : String, strContains s "google" = false →
      strContains s "facebook" = true → formatSource s = "Facebook") ∧
    (∀ s : String, strContains s "google" = false →
      strContains s "facebook" = false →
      strContains s "instagram" = true → formatSource s = "Instagram") ∧
    (∀ s : String, strContains s "google" = false →
      strContains s "facebook" = false → strContains s "instagram" = false →
      strContains s "twitter" = true → formatSource s = "Twitter") ∧
    (∀ s : String, strContains s "google" = false →
      strContains s "facebook" = false → strContains s "instagram" = false →
      strContains s "twitter" = false →
      strContains s "linkedin" = true → formatSource s = "LinkedIn") ∧
    (∀ (s host : String), strContains s "google" = false →
      strContains s "facebook" = false → strContains s "instagram" = false →
      strContains s "twitter" = false → strContains s "linkedin" = false →
      s ≠ "direct" → "http".toList <+: s.toList → parseHostname s = some host →
      formatSource s = replaceFirst host "www.") ∧
    (∀ s : String, strContains s "google" = false →
      strContains s "facebook" = false → strContains s "instagram" = false →
      strContains s "twitter" = false → strContains s "linkedin" = false →
      s ≠ "direct" → ¬("http".toList <+: s.toList) → formatSource s = s) ∧
    (∀ pv : List RawEvent, (calculateTrafficSources pv).Pairwise
      (fun a b => b.visitors ≤ a.visitors)) ∧
    (∀ (pv : List RawEvent) (row : TrafficSource),
      row ∈ calculateTrafficSources pv → ∃ k ∈ pv.map sourceKey,
        row.source = (if k = "direct" then "Direct" else formatSource k) ∧
        row.visitors =
          (dedupFirst ((pv.filter (fun e => sourceKey e = k)).map (·.visitor_id))).length) ∧
    (calculateTrafficSources
      [⟨"v1", 0, "/", none, some "https://www.google.com/search", 0⟩]).map (·.source) =
      ["Google"] := by
  refine ⟨?_, ?_, ?_, ?_, ?_, ?_, ?_, ?_, ?_, ?_, ?_, ?_, ?_⟩
  · intro e s hu hs
    simp [sourceKey, orFalsy, hu, hs]
  · intro e r hu hr hrne
    rcases hu with hu | hu <;> simp [sourceKey, orFalsy, hu, hr, hrne]
  · intro e hu hr
    rcases hu with hu | hu <;> rcases hr with hr | hr <;>
      simp [sourceKey, orFalsy, hu, hr]
  · intro s h1
    simp [formatSource, h1]
  · intro s h1 h2
    simp [formatSource, h1, h2]
  · intro s h1 h2 h3
    simp [formatSource, h1, h2, h3]
  · intro s h1 h2 h3 h4
    simp [formatSource, h1, h2, h3, h4]
  · intro s h1 h2 h3 h4 h5
    simp [formatSource, h1, h2, h3, h4, h5]
  · intro s host h1 h2 h3 h4 h5 hd hpre hparse
    have hpre2 : ['h', 't', 't', 'p'] <+: s.data := hpre
    simp [formatSource, h1, h2, h3, h4, h5, hd, hpre2, hparse]
  · intro s h1 h2 h3 h4 h5 hd hpre
    have hpre2 : ¬(['h', 't', 't', 'p'] <+: s.data) := hpre
    simp [formatSource, h1, h2, h3, h4, h5, hd, hpre2]
  · intro pv
    by_cases hpv : pv = []
    · simp [calculateTrafficSources, hpv]
    · simp only [calculateTrafficSources, if_neg hpv]
      have h := @List.sorted_mergeSort TrafficSource
        (fun a b => decide (b.visitors ≤ a.visitors))
        (fun a b c hab hbc => by
          simp only [decide_eq_true_eq] at hab hbc ⊢
          exact le_trans hbc hab)
        (fun a b => by simpa using Nat.le_total b.visitors a.visitors)
      exact (h _).imp (by simp)
  · intro pv row hrow
    by_cases hpv : pv = []
    · subst hpv
      simp [calculateTrafficSources] at hrow
    · simp only [calculateTrafficSources, if_neg hpv] at hrow
      rw [(List.mergeSort_perm _ _).mem_iff] at hrow
      obtain ⟨kv, hkv, hrfl⟩ := List.mem_map.mp hrow
      rw [keyedFold_someKey_eq] at hkv
      obtain ⟨k, hk, hkrfl⟩ := List.mem_map.mp hkv
      refine ⟨k, (mem_dedupFirst _ _).mp hk, ?_, ?_⟩
      · rw [← hrfl, ← hkrfl]
      · rw [← hrfl, ← hkrfl]
        show (((pv.filter (fun e => sourceKey e = k)).foldl
          (fun a i => sourceUpd pv i a) ⟨[], []⟩).visitors).length = _
        rw [sourceFold_visitors]
        rfl
  · have hone : ∀ z : TrafficSource, List.map (fun r => r.source) [z] = [z.source] := by
      intro z; rfl
    simp only [calculateTrafficSources, keyedFold, List.foldl_cons, List.foldl_nil,
      updAssoc, List.map_cons, List.map_nil, List.mergeSort_singleton, hone]
    norm_num
    decide

theorem C8_traffic_sources_witness :
    strContains "https://www.example.org/app" "google" = false ∧
    strContains "https://www.example.org/app" "facebook" = false ∧
    strContains "https://www.example.org/app" "instagram" = false ∧
    strContains "https://www.example.org/app" "twitter" = false ∧
    strContains "https://www.example.org/app" "linkedin" = false ∧
    "https://www.example.org/app" ≠ "direct" ∧
    ("http".toList <+: "https://www.example.org/app".toList) ∧
    parseHostname "https://www.example.org/app" = some "www.example.org" ∧
    formatSource "https://www.example.org/app" = replaceFirst "www.example.org" "www." :=
  ⟨by decide, by decide, by decide, by decide, by decide, by decide, by decide, by decide,
    C8_traffic_sources.2.2.2.2.2.2.2.2.1 "https://www.example.org/app" "www.example.org"
      (by decide) (by decide) (by decide) (by decide) (by decide) (by decide) (by decide)
      (by decide)⟩

theorem visitFold_acc (L : List RawEvent) (a : PageAcc) :
    ((L.foldl (fun acc e => { acc with
        visits := acc.visits + 1
        totalTime := acc.totalTime + e.time_on_page }) a).visits = a.visits + L.length) ∧
    ((L.foldl (fun acc e => { acc with
        visits := acc.visits + 1
        totalTime := acc.totalTime + e.time_on_page }) a).exits = a.exits) := by
  induction L generalizing a with
  | nil => simp
  | cons e L ih =>
    rw [List.foldl_cons]
    refine ⟨((ih _).1).trans ?_, (ih _).2⟩
    simp
    omega

theorem exitFold_acc (L : List (String × List RawEvent)) (a : PageAcc) :
    ((L.foldl (fun acc _ => { acc with exits := acc.exits + 1 }) a).exits =
      a.exits + L.length) ∧
    ((L.foldl (fun acc _ => { acc with exits := acc.exits + 1 }) a).visits = a.visits) := by
  induction L generalizing a with
  | nil => simp
  | cons kv L ih =>
    rw [List.foldl_cons]
    refine ⟨((ih _).1).trans ?_, (ih _).2⟩
    simp
    omega

theorem exitsFilter_eq (pv : List RawEvent) (url : String) :
    ((visitorPagesOf pv).filter (fun kv => exitPathOf kv = some url)).length =
      exitsCount pv url := by
  rw [visitorPagesOf_eq, List.filter_map, List.length_map, exitsCount]
  congr 1

theorem C6_row_fields (pv : List RawEvent) (row : ExitPage)
    (hrow : row ∈ calculateExitPages pv) :
    row.visits = pv.countP (fun e => e.path = row.url) ∧
    row.exitRate = toFixed1 (((exitsCount pv row.url : ℚ) / (row.visits : ℚ)) * 100) := by
  by_cases hpv : pv = []
  · subst hpv
    simp [calculateExitPages] at hrow
  · simp only [calculateExitPages, if_neg hpv] at hrow
    have hrow2 := List.mem_of_mem_take hrow
    rw [(List.mergeSort_perm _ _).mem_iff] at hrow2
    obtain ⟨kv, hkv, hrfl⟩ := List.mem_map.mp hrow2
    have hndS : ((keyedFold (⟨0, 0, 0⟩ : PageAcc) (fun e => some e.path)
        (fun e a => { a with visits := a.visits + 1
                             totalTime := a.totalTime + e.time_on_page })
        (keyedFold (⟨0, 0, 0⟩ : PageAcc) exitPathOf
          (fun _ a => { a with exits := a.exits + 1 }) [] (visitorPagesOf pv))
        pv).map (·.1)).Nodup := by
      rw [keys_keyedFold]
      apply nodup_foldl_dedupStep
      rw [keys_keyedFold]
      exact nodup_foldl_dedupStep _ _ List.nodup_nil
    have hval := valOf_of_mem (⟨0, 0, 0⟩ : PageAcc) hndS hkv
    rw [valOf_keyedFold, valOf_keyedFold] at hval
    have hvnil : valOf (⟨0, 0, 0⟩ : PageAcc) [] kv.1 = ⟨0, 0, 0⟩ := rfl
    rw [hvnil] at hval
    have hbase := exitFold_acc ((visitorPagesOf pv).filter
      (fun kv2 => exitPathOf kv2 = some kv.1)) ⟨0, 0, 0⟩
    have hvis := visitFold_acc (pv.filter (fun i => some i.path = some kv.1))
      (((visitorPagesOf pv).filter (fun kv2 => exitPathOf kv2 = some kv.1)).foldl
        (fun acc _ => { acc with exits := acc.exits + 1 }) ⟨0, 0, 0⟩)
    have hlen : (pv.filter (fun (i : RawEvent) => some i.path = some kv.1)).length =
        pv.countP (fun e => e.path = kv.1) := by
      rw [List.countP_eq_length_filter]
      congr 1
      exact List.filter_congr (fun e _ => by simp)
    have hV : kv.2.visits = pv.countP (fun e => e.path = kv.1) := by
      rw [← hval, hvis.1, hbase.2, Nat.zero_add, hlen]
    have hE : kv.2.exits = exitsCount pv kv.1 := by
      rw [← hval, hvis.2, hbase.1, Nat.zero_add, exitsFilter_eq]
    subst hrfl
    constructor
    · show kv.2.visits = pv.countP (fun e => e.path = kv.1)
      exact hV
    · show toFixed1 (((kv.2.exits : ℚ) / (kv.2.visits : ℚ)) * 100) =
        toFixed1 (((exitsCount pv kv.1 : ℚ) / ((kv.2.visits : ℚ))) * 100)
      rw [hE]

/-- C6: every exit-page row reports visits equal to the total number of
events on that path, and exitRate equal to exits/visits × 100 rounded to
one decimal where exits counts the visitors whose chronologically last
event is on that path; the result is sorted descending by exitRate and
has at most 10 entries; and on the scenario with /cart (2 visits, 1 exit)
and /home (3 visits, 0 exits), /cart ranks first with rate 50.0 against
0.0 for /home. -/
theorem C6_exit_pages :
    (∀ pv : List RawEvent, (calculateExitPages pv).length ≤ 10) ∧
    (∀ pv : List RawEvent,
      (calculateExitPages pv).Pairwise (fun a b => b.exitRate ≤ a.exitRate)) ∧
    (∀ (pv : List RawEvent) (row : ExitPage), row ∈ calculateExitPages pv →
      row.visits = pv.countP (fun e => e.path = row.url) ∧
      row.exitRate = toFixed1 (((exitsCount pv row.url : ℚ) / (row.visits : ℚ)) * 100)) ∧
    calculateExitPages
      [⟨"v1", 0, "/home", none, none, 0⟩, ⟨"v1", 1000, "/home", none, none, 0⟩,
       ⟨"v1", 2000, "/home", none, none, 0⟩, ⟨"v1", 3000, "/cart", none, none, 0⟩,
       ⟨"v1", 4000, "/cart", none, none, 0⟩] =
      [⟨"/cart", 50, 2, 0⟩, ⟨"/home", 0, 3, 0⟩] := by
  refine ⟨?_, ?_, C6_row_fields, ?_⟩
  · intro pv
    by_cases hpv : pv = []
    · simp [calculateExitPages, hpv]
    · simp only [calculateExitPages, if_neg hpv]
      exact List.length_take_le _ _
  · intro pv
    by_cases hpv : pv = []
    · simp [calculateExitPages, hpv]
    · simp only [calculateExitPages, if_neg hpv]
      have h := @List.sorted_mergeSort ExitPage
        (fun a b => decide (b.exitRate ≤ a.exitRate))
        (fun a b c hab hbc => by
          simp only [decide_eq_true_eq] at hab hbc ⊢
          exact le_trans hbc hab)
        (fun a b => by simpa using le_total b.exitRate a.exitRate)
      exact (List.Pairwise.sublist (List.take_sublist _ _) (h _)).imp (by simp)
  · have hs : sortByTime
        [⟨"v1", 0, "/home", none, none, 0⟩, ⟨"v1", 1000, "/home", none, none, 0⟩,
         ⟨"v1", 2000, "/home", none, none, 0⟩, ⟨"v1", 3000, "/cart", none, none, 0⟩,
         ⟨"v1", 4000, "/cart", none, none, 0⟩] =
        [⟨"v1", 0, "/home", none, none, 0⟩, ⟨"v1", 1000, "/home", none, none, 0⟩,
         ⟨"v1", 2000, "/home", none, none, 0⟩, ⟨"v1", 3000, "/cart", none, none, 0⟩,
         ⟨"v1", 4000, "/cart", none, none, 0⟩] := by
      apply List.mergeSort_of_sorted
      decide
    have h1 : calculateExitPages
        [⟨"v1", 0, "/home", none, none, 0⟩, ⟨"v1", 1000, "/home", none, none, 0⟩,
         ⟨"v1", 2000, "/home", none, none, 0⟩, ⟨"v1", 3000, "/cart", none, none, 0⟩,
         ⟨"v1", 4000, "/cart", none, none, 0⟩] =
        (([⟨"/cart", 50, 2, 0⟩, ⟨"/home", 0, 3, 0⟩] : List ExitPage).mergeSort
          (fun a b => b.exitRate ≤ a.exitRate)).take 10 := by
      have hne : ([⟨"v1", 0, "/home", none, none, 0⟩, ⟨"v1", 1000, "/home", none, none, 0⟩,
          ⟨"v1", 2000, "/home", none, none, 0⟩, ⟨"v1", 3000, "/cart", none, none, 0⟩,
          ⟨"v1", 4000, "/cart", none, none, 0⟩] : List RawEvent) ≠ [] := by simp
      norm_num [calculateExitPages, visitorPagesOf, keyedFold, updAssoc, exitPathOf,
        hs, hne, toFixed1, jsRound, List.filter]
    rw [h1, List.mergeSort_of_sorted (by decide)]
    rfl

theorem C6_exit_pages_witness :
    ((⟨"/cart", 50, 2, 0⟩ : ExitPage) ∈ calculateExitPages
      [⟨"v1", 0, "/home", none, none, 0⟩, ⟨"v1", 1000, "/home", none, none, 0⟩,
       ⟨"v1", 2000, "/home", none, none, 0⟩, ⟨"v1", 3000, "/cart", none, none, 0⟩,
       ⟨"v1", 4000, "/cart", none, none, 0⟩]) ∧
    ((⟨"/cart", 50, 2, 0⟩ : ExitPage).visits =
      ([⟨"v1", 0, "/home", none, none, 0⟩, ⟨"v1", 1000, "/home", none, none, 0⟩,
        ⟨"v1", 2000, "/home", none, none, 0⟩, ⟨"v1", 3000, "/cart", none, none, 0⟩,
        ⟨"v1", 4000, "/cart", none, none, 0⟩] : List RawEvent).countP
          (fun e => e.path = (⟨"/cart", 50, 2, 0⟩ : ExitPage).url) ∧
     (⟨"/cart", 50, 2, 0⟩ : ExitPage).exitRate =
      toFixed1 (((exitsCount
          [⟨"v1", 0, "/home", none, none, 0⟩, ⟨"v1", 1000, "/home", none, none, 0⟩,
           ⟨"v1", 2000, "/home", none, none, 0⟩, ⟨"v1", 3000, "/cart", none, none, 0⟩,
           ⟨"v1", 4000, "/cart", none, none, 0⟩]
          (⟨"/cart", 50, 2, 0⟩ : ExitPage).url : ℚ) /
        ((⟨"/cart", 50, 2, 0⟩ : ExitPage).visits : ℚ)) * 100)) := by
  have hmem : (⟨"/cart", 50, 2, 0⟩ : ExitPage) ∈ calculateExitPages
      [⟨"v1", 0, "/home", none, none, 0⟩, ⟨"v1", 1000, "/home", none, none, 0⟩,
       ⟨"v1", 2000, "/home", none, none, 0⟩, ⟨"v1", 3000, "/cart", none, none, 0⟩,
       ⟨"v1", 4000, "/cart", none, none, 0⟩] := by
    rw [C6_exit_pages.2.2.2]
    exact List.mem_cons_self _ _
  exact ⟨hmem, C6_exit_pages.2.2.1 _ _ hmem⟩

theorem lastEventTime_sog (g : List RawEvent) :
    lastEventTime (sessionOfGroup g) = lastTimeOf g := rfl

theorem farMono {a b l : ℚ} (hab : a ≤ b)
    (h : ¬((a - l) / (1000 * 60) ≤ 30)) : ¬((b - l) / (1000 * 60) ≤ 30) := by
  intro hb
  apply h
  calc (a - l) / (1000 * 60) ≤ (b - l) / (1000 * 60) := by gcongr
    _ ≤ 30 := hb

theorem attachEvent_last (e : RawEvent) (ds : List Session) (sc : Session)
    (h : ∀ s ∈ ds, ¬((e.created_at - lastEventTime s) / (1000 * 60) ≤ 30)) :
    attachEvent e (ds ++ [sc]) =
      if (e.created_at - lastEventTime sc) / (1000 * 60) ≤ 30 then
        some (ds ++ [{ sc with endTime := e.created_at, events := sc.events ++ [e] }])
      else none := by
  induction ds with
  | nil =>
    by_cases hc : (e.created_at - lastEventTime sc) / (1000 * 60) ≤ 30 <;>
      simp [attachEvent, hc]
  | cons s ds ih =>
    have hstep := h s (List.mem_cons_self s ds)
    rw [List.cons_append]
    rw [show attachEvent e (s :: (ds ++ [sc])) =
      (attachEvent e (ds ++ [sc])).map (s :: ·) by
        simp [attachEvent, hstep]]
    rw [ih (fun s2 hs2 => h s2 (List.mem_cons_of_mem s hs2))]
    by_cases hc : (e.created_at - lastEventTime sc) / (1000 * 60) ≤ 30 <;>
      simp [hc]

theorem lastTimeOf_concat (l : List RawEvent) (e : RawEvent) :
    lastTimeOf (l ++ [e]) = e.created_at := by
  simp [lastTimeOf, List.getLast?_concat]

theorem sog_append (cur : List RawEvent) (e : RawEvent) (hcur : cur ≠ []) :
    { sessionOfGroup cur with endTime := e.created_at, events := cur ++ [e] } =
      sessionOfGroup (cur ++ [e]) := by
  obtain ⟨c, cur2, rfl⟩ := List.exists_cons_of_ne_nil hcur
  simp only [sessionOfGroup, Session.mk.injEq]
  refine ⟨rfl, ?_, trivial⟩
  show e.created_at = lastTimeOf ((c :: cur2) ++ [e])
  rw [lastTimeOf_concat]

theorem sog_push (cur : List RawEvent) (e : RawEvent) (hcur : cur ≠ []) :
    ({ startTime := (sessionOfGroup cur).startTime, endTime := e.created_at,
       events := (sessionOfGroup cur).events ++ [e] } : Session) =
      sessionOfGroup (cur ++ [e]) := by
  obtain ⟨c, cur2, rfl⟩ := List.exists_cons_of_ne_nil hcur
  simp only [sessionOfGroup, Session.mk.injEq]
  refine ⟨rfl, ?_, trivial⟩
  show e.created_at = lastTimeOf ((c :: cur2) ++ [e])
  rw [lastTimeOf_concat]

theorem firstTimeOf_append (cur l2 : List RawEvent) (hcur : cur ≠ []) :
    firstTimeOf (cur ++ l2) = firstTimeOf cur := by
  obtain ⟨c, cur2, rfl⟩ := List.exists_cons_of_ne_nil hcur
  rfl

theorem firstTimeOf_le_of_sorted (cur : List RawEvent) (e : RawEvent)
    (rest : List RawEvent) (hcur : cur ≠ []) (hs : timeSorted (cur ++ e :: rest)) :
    firstTimeOf cur ≤ e.created_at := by
  obtain ⟨c, cur2, rfl⟩ := List.exists_cons_of_ne_nil hcur
  exact (List.pairwise_append.mp hs).2.2 c (List.mem_cons_self c cur2) e
    (List.mem_cons_self e rest)

theorem foldl_addEvent_splitAux (rest : List RawEvent) :
    ∀ (done : List (List RawEvent)) (cur : List RawEvent), cur ≠ [] →
    timeSorted (cur ++ rest) →
    (∀ g ∈ done, ¬((firstTimeOf cur - lastTimeOf g) / (1000 * 60) ≤ 30)) →
    List.foldl addEvent ((done ++ [cur]).map sessionOfGroup) rest =
      (done ++ splitAux cur rest).map sessionOfGroup := by
  induction rest with
  | nil =>
    intro done cur hcur hs hinv
    rfl
  | cons e rest ih =>
    intro done cur hcur hs hinv
    rw [List.foldl_cons]
    have hfc : firstTimeOf cur ≤ e.created_at :=
      firstTimeOf_le_of_sorted cur e rest hcur hs
    have hfar : ∀ s ∈ done.map sessionOfGroup,
        ¬((e.created_at - lastEventTime s) / (1000 * 60) ≤ 30) := by
      intro s hsm
      obtain ⟨g, hg, rfl⟩ := List.mem_map.mp hsm
      rw [lastEventTime_sog]
      exact farMono hfc (hinv g hg)
    have hmapapp : (done ++ [cur]).map sessionOfGroup =
        done.map sessionOfGroup ++ [sessionOfGroup cur] := by simp
    have hat := attachEvent_last e (done.map sessionOfGroup) (sessionOfGroup cur) hfar
    rw [lastEventTime_sog] at hat
    by_cases hc : (e.created_at - lastTimeOf cur) / (1000 * 60) ≤ 30
    · rw [if_pos hc] at hat
      have haddE : addEvent ((done ++ [cur]).map sessionOfGroup) e =
          (done ++ [cur ++ [e]]).map sessionOfGroup := by
        rw [hmapapp]
        simp only [addEvent, hat]
        rw [sog_push cur e hcur]
        simp
      rw [haddE]
      have hs2 : timeSorted ((cur ++ [e]) ++ rest) := by
        rw [List.append_assoc]
        exact hs
      have hinv2 : ∀ g ∈ done,
          ¬((firstTimeOf (cur ++ [e]) - lastTimeOf g) / (1000 * 60) ≤ 30) := by
        intro g hg
        rw [firstTimeOf_append cur [e] hcur]
        exact hinv g hg
      rw [ih done (cur ++ [e]) (by simp) hs2 hinv2]
      have hsplit : splitAux cur (e :: rest) = splitAux (cur ++ [e]) rest := by
        simp only [splitAux]
        rw [if_pos hc]
      rw [hsplit]
    · rw [if_neg hc] at hat
      have haddE : addEvent ((done ++ [cur]).map sessionOfGroup) e =
          ((done ++ [cur]) ++ [[e]]).map sessionOfGroup := by
        rw [hmapapp]
        simp only [addEvent, hat]
        show List.map sessionOfGroup done ++ [sessionOfGroup cur] ++ [sessionOfGroup [e]] = _
        simp
      rw [haddE]
      have hs2 : timeSorted ([e] ++ rest) :=
        List.Pairwise.sublist (List.sublist_append_right cur (e :: rest)) hs
      have hinv2 : ∀ g ∈ done ++ [cur],
          ¬((firstTimeOf [e] - lastTimeOf g) / (1000 * 60) ≤ 30) := by
        intro g hg
        rcases List.mem_append.mp hg with hg | hg
        · show ¬((e.created_at - lastTimeOf g) / (1000 * 60) ≤ 30)
          exact farMono hfc (hinv g hg)
        · rw [List.mem_singleton] at hg
          subst hg
          exact hc
      rw [ih (done ++ [cur]) [e] (by simp) hs2 hinv2]
      have hsplit : splitAux cur (e :: rest) = cur :: splitAux [e] rest := by
        simp only [splitAux]
        rw [if_neg hc]
      rw [hsplit, List.append_assoc]
      rfl

theorem buildSessions_eq_splitGaps (l : List RawEvent) (hs : timeSorted l) :
    buildSessions l = (splitGaps l).map sessionOfGroup := by
  cases l with
  | nil => rfl
  | cons e rest =>
    have h0 : buildSessions (e :: rest) =
        List.foldl addEvent (([] ++ [[e]]).map sessionOfGroup) rest := rfl
    rw [h0, foldl_addEvent_splitAux rest [] [e] (by simp) hs (by simp)]
    rfl

theorem splitAux_flatten (rest : List RawEvent) :
    ∀ cur : List RawEvent, (splitAux cur rest).flatten = cur ++ rest := by
  induction rest with
  | nil => intro cur; simp [splitAux]
  | cons e rest ih =>
    intro cur
    simp only [splitAux]
    by_cases hc : (e.created_at - lastTimeOf cur) / (1000 * 60) ≤ 30
    · rw [if_pos hc, ih (cur ++ [e]), List.append_assoc]
      rfl
    · rw [if_neg hc]
      simp only [List.flatten_cons, ih [e]]
      rfl

theorem splitAux_nonempty (rest : List RawEvent) :
    ∀ cur : List RawEvent, cur ≠ [] → ∀ g ∈ splitAux cur rest, g ≠ [] := by
  induction rest with
  | nil =>
    intro cur hcur g hg
    simp [splitAux] at hg
    subst hg
    exact hcur
  | cons e rest ih =>
    intro cur hcur g hg
    simp only [splitAux] at hg
    by_cases hc : (e.created_at - lastTimeOf cur) / (1000 * 60) ≤ 30
    · rw [if_pos hc] at hg
      exact ih (cur ++ [e]) (by simp) g hg
    · rw [if_neg hc] at hg
      rcases List.mem_cons.mp hg with hg | hg
      · subst hg; exact hcur
      · exact ih [e] (by simp) g hg

theorem lastTimeOf_eq_getLast (cur : List RawEvent) (x : RawEvent)
    (hx : cur.getLast? = some x) : lastTimeOf cur = x.created_at := by
  simp [lastTimeOf, hx]

theorem splitAux_chain_within (rest : List RawEvent) :
    ∀ cur : List RawEvent, cur ≠ [] → List.Chain' withinGap cur →
    ∀ g ∈ splitAux cur rest, List.Chain' withinGap g := by
  induction rest with
  | nil =>
    intro cur hcur hch g hg
    simp [splitAux] at hg
    subst hg
    exact hch
  | cons e rest ih =>
    intro cur hcur hch g hg
    simp only [splitAux] at hg
    by_cases hc : (e.created_at - lastTimeOf cur) / (1000 * 60) ≤ 30
    · rw [if_pos hc] at hg
      refine ih (cur ++ [e]) (by simp) ?_ g hg
      rw [List.chain'_append]
      refine ⟨hch, List.chain'_singleton e, ?_⟩
      intro x hx y hy
      simp only [List.head?_cons, Option.mem_def, Option.some.injEq] at hy
      subst hy
      rw [Option.mem_def] at hx
      show withinGap x e
      rw [withinGap, ← lastTimeOf_eq_getLast cur x hx]
      exact hc
    · rw [if_neg hc] at hg
      rcases List.mem_cons.mp hg with hg | hg
      · subst hg
        exact hch
      · exact ih [e] (by simp) (List.chain'_singleton e) g hg

theorem splitAux_head (rest : List RawEvent) :
    ∀ cur : List RawEvent, ∃ (ext : List RawEvent) (gs : List (List RawEvent)),
      splitAux cur rest = (cur ++ ext) :: gs := by
  induction rest with
  | nil =>
    intro cur
    exact ⟨[], [], by simp [splitAux]⟩
  | cons e rest ih =>
    intro cur
    by_cases hc : (e.created_at - lastTimeOf cur) / (1000 * 60) ≤ 30
    · obtain ⟨ext, gs, h⟩ := ih (cur ++ [e])
      refine ⟨[e] ++ ext, gs, ?_⟩
      simp only [splitAux]
      rw [if_pos hc, h, List.append_assoc]
    · refine ⟨[], splitAux [e] rest, ?_⟩
      simp only [splitAux]
      rw [if_neg hc]
      simp

theorem splitAux_chain_boundary (rest : List RawEvent) :
    ∀ cur : List RawEvent,
      List.Chain' (fun g g2 => ¬((firstTimeOf g2 - lastTimeOf g) / (1000 * 60) ≤ 30))
        (splitAux cur rest) := by
  induction rest with
  | nil =>
    intro cur
    simp [splitAux]
  | cons e rest ih =>
    intro cur
    simp only [splitAux]
    by_cases hc : (e.created_at - lastTimeOf cur) / (1000 * 60) ≤ 30
    · rw [if_pos hc]
      exact ih (cur ++ [e])
    · rw [if_neg hc]
      rw [List.chain'_cons']
      refine ⟨?_, ih [e]⟩
      intro y hy
      obtain ⟨ext, gs, heq⟩ := splitAux_head rest [e]
      rw [heq] at hy
      simp only [List.head?_cons, Option.mem_def, Option.some.injEq] at hy
      subst hy
      show ¬((firstTimeOf (e :: ext) - lastTimeOf cur) / (1000 * 60) ≤ 30)
      exact hc

theorem splitGaps_flatten (l : List RawEvent) : (splitGaps l).flatten = l := by
  cases l with
  | nil => rfl
  | cons e rest => exact splitAux_flatten rest [e]

theorem splitGaps_chain_within (l : List RawEvent) :
    ∀ g ∈ splitGaps l, List.Chain' withinGap g := by
  cases l with
  | nil => intro g hg; simp [splitGaps] at hg
  | cons e rest =>
    exact splitAux_chain_within rest [e] (by simp) (List.chain'_singleton e)

theorem splitGaps_chain_boundary (l : List RawEvent) :
    List.Chain' (fun g g2 => ¬((firstTimeOf g2 - lastTimeOf g) / (1000 * 60) ≤ 30))
      (splitGaps l) := by
  cases l with
  | nil => simp [splitGaps]
  | cons e rest => exact splitAux_chain_boundary rest [e]

theorem splitGaps_nonempty (l : List RawEvent) : ∀ g ∈ splitGaps l, g ≠ [] := by
  cases l with
  | nil => intro g hg; simp [splitGaps] at hg
  | cons e rest => exact splitAux_nonempty rest [e] (by simp)

/-- C1 (amended): when the input events arrive sorted ascending by
`created_at` — as the stats endpoint's database query orders them — every
visitor's sessions partition that visitor's event stream in order, within
a session consecutive events are at most 30 minutes apart, consecutive
sessions are separated by a gap of more than 30 minutes (so every gap over
30 minutes produces a boundary), and a session only ever contains events
of its own visitor.  (On unsorted input the code, which never sorts, can
violate the gap invariant — see the counterexample.) -/
theorem C1_session_invariants (pv : List RawEvent) (hs : timeSorted pv)
    (v : String) (ss : List Session) (hmem : (v, ss) ∈ buildSessionMap pv) :
    (ss.map (·.events)).flatten = pv.filter (fun e => e.visitor_id = v) ∧
    (∀ s ∈ ss, List.Chain' withinGap s.events) ∧
    List.Chain' boundaryGap ss ∧
    (∀ s ∈ ss, ∀ e ∈ s.events, e.visitor_id = v) ∧
    (∀ s ∈ ss, s.events ≠ []) := by
  rw [buildSessionMap_eq] at hmem
  obtain ⟨v, hv, heq⟩ := List.mem_map.mp hmem
  cases heq
  have hls : timeSorted (pv.filter (fun e => e.visitor_id = v)) :=
    List.Pairwise.sublist (List.filter_sublist _) hs
  rw [buildSessions_eq_splitGaps _ hls]
  have hflat : (((splitGaps (pv.filter (fun e => e.visitor_id = v))).map
      sessionOfGroup).map (·.events)).flatten =
      pv.filter (fun e => e.visitor_id = v) := by
    rw [List.map_map]
    have hcomp : ((fun s : Session => s.events) ∘ sessionOfGroup) =
        (id : List RawEvent → List RawEvent) := funext fun g => rfl
    rw [hcomp, List.map_id, splitGaps_flatten]
  refine ⟨hflat, ?_, ?_, ?_, ?_⟩
  · intro s hsm
    obtain ⟨g, hg, rfl⟩ := List.mem_map.mp hsm
    exact splitGaps_chain_within _ g hg
  · rw [List.chain'_map]
    exact splitGaps_chain_boundary _
  · intro s hsm e he
    obtain ⟨g, hg, rfl⟩ := List.mem_map.mp hsm
    have hin : e ∈ (splitGaps (pv.filter (fun e2 => e2.visitor_id = v))).flatten :=
      List.mem_flatten.mpr ⟨g, hg, he⟩
    rw [splitGaps_flatten] at hin
    exact of_decide_eq_true (List.mem_filter.mp hin).2
  · intro s hsm
    obtain ⟨g, hg, rfl⟩ := List.mem_map.mp hsm
    exact splitGaps_nonempty _ g hg

/-- C1 counterexample: on unsorted input the code violates the claim as
stated for arbitrary inputs — the two events of visitor "a" at minutes 100
and 10, arriving in that order, land in one session although they are 90
minutes apart in the visitor's time-sorted event list, so that gap
produces no session boundary. -/
theorem C1_unsorted_gap_no_boundary :
    buildSessionMap
        [⟨"a", 6000000, "/", none, none, 0⟩, ⟨"a", 600000, "/", none, none, 0⟩] =
      [("a", [⟨6000000, 600000,
        [⟨"a", 6000000, "/", none, none, 0⟩, ⟨"a", 600000, "/", none, none, 0⟩]⟩])] ∧
    ¬(((6000000 : ℚ) - 600000) / (1000 * 60) ≤ 30) := by
  constructor
  · norm_num [buildSessionMap, keyedFold, updAssoc, addEvent, attachEvent,
      lastEventTime]
  · norm_num

theorem C1_session_invariants_witness :
    timeSorted [⟨"a", 0, "/", none, none, 0⟩, ⟨"a", 2100000, "/", none, none, 0⟩] ∧
    (("a", [⟨0, 0, [⟨"a", 0, "/", none, none, 0⟩]⟩,
            ⟨2100000, 2100000, [⟨"a", 2100000, "/", none, none, 0⟩]⟩]) ∈
      buildSessionMap
        [⟨"a", 0, "/", none, none, 0⟩, ⟨"a", 2100000, "/", none, none, 0⟩]) ∧
    ((([⟨0, 0, [⟨"a", 0, "/", none, none, 0⟩]⟩,
        ⟨2100000, 2100000, [⟨"a", 2100000, "/", none, none, 0⟩]⟩] : List Session).map
          (·.events)).flatten =
        ([⟨"a", 0, "/", none, none, 0⟩,
          ⟨"a", 2100000, "/", none, none, 0⟩] : List RawEvent).filter
          (fun e => e.visitor_id = "a") ∧
      (∀ s ∈ ([⟨0, 0, [⟨"a", 0, "/", none, none, 0⟩]⟩,
          ⟨2100000, 2100000, [⟨"a", 2100000, "/", none, none, 0⟩]⟩] : List Session),
        List.Chain' withinGap s.events) ∧
      List.Chain' boundaryGap
        [⟨0, 0, [⟨"a", 0, "/", none, none, 0⟩]⟩,
         ⟨2100000, 2100000, [⟨"a", 2100000, "/", none, none, 0⟩]⟩] ∧
      (∀ s ∈ ([⟨0, 0, [⟨"a", 0, "/", none, none, 0⟩]⟩,
          ⟨2100000, 2100000, [⟨"a", 2100000, "/", none, none, 0⟩]⟩] : List Session),
        ∀ e ∈ s.events, e.visitor_id = "a") ∧
      (∀ s ∈ ([⟨0, 0, [⟨"a", 0, "/", none, none, 0⟩]⟩,
          ⟨2100000, 2100000, [⟨"a", 2100000, "/", none, none, 0⟩]⟩] : List Session),
        s.events ≠ [])) := by
  have hs : timeSorted
      [⟨"a", 0, "/", none, none, 0⟩, ⟨"a", 2100000, "/", none, none, 0⟩] := by
    rw [timeSorted]
    decide
  have hbm : buildSessionMap
      [⟨"a", 0, "/", none, none, 0⟩, ⟨"a", 2100000, "/", none, none, 0⟩] =
      [("a", [⟨0, 0, [⟨"a", 0, "/", none, none, 0⟩]⟩,
              ⟨2100000, 2100000, [⟨"a", 2100000, "/", none, none, 0⟩]⟩])] := by
    norm_num [buildSessionMap, keyedFold, updAssoc, addEvent, attachEvent,
      lastEventTime]
  have hmem : ("a", [⟨0, 0, [⟨"a", 0, "/", none, none, 0⟩]⟩,
      ⟨2100000, 2100000, [⟨"a", 2100000, "/", none, none, 0⟩]⟩]) ∈
      buildSessionMap
        [⟨"a", 0, "/", none, none, 0⟩, ⟨"a", 2100000, "/", none, none, 0⟩] := by
    rw [hbm]
    exact List.mem_cons_self _ _
  exact ⟨hs, hmem, C1_session_invariants _ hs "a" _ hmem⟩
